import Mathlib

/-!
Log-driver plugin adapter (`logging/api.go`).

A shallow embedding of the package `logging`: the route constants, the
request and response records, the `Driver` interface and the four handler
closures that `initMux` registers.

Conventions of the embedding.

* A Go `error` is `Option GoError`: `none` is `nil`, `some e` a non-nil error
  whose `Error()` string is `e.Error`.
* The driver is an interface value whose methods may have effects, so every
  method takes and returns the driver's state `σ`.
* A handler closure is a function of the driver state and the request; it
  returns the driver state it leaves behind and the ordered list of calls it
  made (`log.Println`, `sdk.DecodeRequest`, the driver's methods,
  `sdk.EncodeResponse`), each with its arguments.
* `logger.Info` and `logger.ReadConfig` belong to another repository; they are
  type parameters `Info` and `ReadConfig`, with `default` as their Go zero
  value.
* Package `sdk` is not part of the sources read here.  The handlers take its
  request decoder as a parameter (`SDK`), so that what is proved of a handler
  holds for every decoder.  Where a statement is about the sdk itself, the
  definitions of the section "The sdk" are used; they follow the package
  `sdk` of go-plugins-helpers and `encoding/json`.
-/

namespace logging

/-! ## Constants (api.go, lines 11-17) -/

def manifest : String := "\x7b\"Implements\": [\"LogDriver\"]\x7d"
def startLoggingPath : String := "/LogDriver.StartLogging"
def stopLoggingPath : String := "/LogDriver.StopLogging"
def readLogsPath : String := "/LogDriver.ReadLogs"
def capabilitiesPath : String := "/LogDriver.Capabilities"

/-! ## Records (api.go, lines 19-50) -/

/-- StartLoggingRequest is the structure that docker's requests are deserialized to. -/
structure StartLoggingRequest (Info : Type) where
  File : String
  Info : Info
  deriving DecidableEq

/-- StopLoggingRequest is the structure that docker's requests are deserialized to. -/
structure StopLoggingRequest where
  File : String
  deriving DecidableEq

/-- ReadLogsRequest is the structure that docker's requests are deserialized to. -/
structure ReadLogsRequest (ReadConfig Info : Type) where
  ReadConfig : ReadConfig
  Info : Info
  deriving DecidableEq

/-- CapabilitiesResponse structure for logging capability response. -/
structure CapabilitiesResponse where
  ReadLogs : Bool
  deriving DecidableEq

/-- ErrorResponse is a formatted error message that docker can understand. -/
structure ErrorResponse where
  Err : String
  deriving DecidableEq

/-- NewErrorResponse creates an ErrorResponse with the provided message. -/
def NewErrorResponse (msg : String) : ErrorResponse := ErrorResponse.mk msg

/-- The value `&StartLoggingRequest{}`: every field at its zero value. -/
def StartLoggingRequest.zero {Info : Type} [Inhabited Info] : StartLoggingRequest Info :=
  StartLoggingRequest.mk "" default

/-- The value `&StopLoggingRequest{}`. -/
def StopLoggingRequest.zero : StopLoggingRequest := StopLoggingRequest.mk ""

/-- The value `&ReadLogsRequest{}`. -/
def ReadLogsRequest.zero {ReadConfig Info : Type} [Inhabited ReadConfig] [Inhabited Info] :
    ReadLogsRequest ReadConfig Info :=
  ReadLogsRequest.mk default default

/-! ## Go values the handlers touch -/

/-- A non-nil Go `error`, known to the handlers only through `Error()`. -/
structure GoError where
  msg : String
  deriving DecidableEq

/-- The method `Error()` of a Go error. -/
def GoError.Error (e : GoError) : String := e.msg

/-- The parts of a `*http.Request`.  The handlers read none of them; they
pass the request on to `sdk.DecodeRequest`. -/
structure Request where
  Method : String
  URL : String
  Header : List (String × String)
  Body : String
  deriving DecidableEq

/-! ## The driver (api.go, lines 52-58)

`ReadLogs` is declared at line 56 with the single result `error`, and called
at line 112 as `res, err := h.driver.ReadLogs(req)`: declaration and call site
disagree.  So that the closure of lines 105-118 can be written down at all, the
field `ReadLogs` has a result component of a type `ρ` next to the error.  The
interface as it is declared is the instance `ρ = Unit`, in which that
component carries nothing. -/

/-- Driver represent the interface a driver must fulfill. -/
structure Driver (σ Info ReadConfig ρ : Type) where
  StartLogging : σ → StartLoggingRequest Info → σ × Option GoError
  StopLogging : σ → StopLoggingRequest → σ × Option GoError
  ReadLogs : σ → ReadLogsRequest ReadConfig Info → σ × ρ × Option GoError
  /-- The result is a pointer: `none` is the nil pointer. -/
  Capabilities : σ → σ × Option CapabilitiesResponse

/-! ## The sdk as the handlers see it -/

/-- The three uses of `sdk.DecodeRequest(w, r, req)`, one for each type of
`req`.  The second argument is the struct `req` points to before the call;
`Except.ok` carries the struct after a call that returned a nil error,
`Except.error` the non-nil error of a call that failed (the handler then
returns, and the struct is never read). -/
structure SDK (Info ReadConfig : Type) where
  DecodeStartLoggingRequest :
    Request → StartLoggingRequest Info → Except GoError (StartLoggingRequest Info)
  DecodeStopLoggingRequest :
    Request → StopLoggingRequest → Except GoError StopLoggingRequest
  DecodeReadLogsRequest :
    Request → ReadLogsRequest ReadConfig Info → Except GoError (ReadLogsRequest ReadConfig Info)

/-- The values given to `sdk.EncodeResponse` as its second argument. -/
inductive Payload (ρ : Type) where
  /-- The empty struct `struct{}{}`. -/
  | empty
  /-- An error payload, `NewErrorResponse(...)`. -/
  | error (e : ErrorResponse)
  /-- The result of `driver.ReadLogs`. -/
  | readLogs (res : ρ)
  /-- The result of `driver.Capabilities()`. -/
  | capabilities (c : Option CapabilitiesResponse)
  deriving DecidableEq

/-- One call made by a handler, with its arguments. -/
inductive Call (Info ReadConfig ρ : Type) where
  | Println (line : String)
  | DecodeRequest (r : Request)
  | StartLogging (req : StartLoggingRequest Info)
  | StopLogging (req : StopLoggingRequest)
  | ReadLogs (req : ReadLogsRequest ReadConfig Info)
  | Capabilities
  | EncodeResponse (res : Payload ρ) (err : Bool)
  deriving DecidableEq

/-- What running a handler closure once leaves behind. -/
structure Run (σ Info ReadConfig ρ : Type) where
  driver : σ
  calls : List (Call Info ReadConfig ρ)

/-- A handler closure: `func(w http.ResponseWriter, r *http.Request)` with the
driver state made explicit. -/
abbrev HandlerFunc (σ Info ReadConfig ρ : Type) : Type :=
  σ → Request → Run σ Info ReadConfig ρ

section handlers

variable {σ Info ReadConfig ρ : Type} [Inhabited Info] [Inhabited ReadConfig]

/-! ## The four closures of `initMux` (api.go, lines 73-124) -/

/-- The closure registered at `startLoggingPath` (lines 74-88). -/
def startLoggingHandler (dec : SDK Info ReadConfig) (driver : Driver σ Info ReadConfig ρ) :
    HandlerFunc σ Info ReadConfig ρ := fun s r =>
  match dec.DecodeStartLoggingRequest r StartLoggingRequest.zero with
  | Except.error _ =>
    Run.mk s
      [Call.Println "Entering go-plugins-helpers startLoggingPath", Call.DecodeRequest r]
  | Except.ok req =>
    match driver.StartLogging s req with
    | (s1, some err) =>
      Run.mk s1
        [Call.Println "Entering go-plugins-helpers startLoggingPath", Call.DecodeRequest r,
         Call.StartLogging req,
         Call.EncodeResponse (Payload.error (NewErrorResponse err.Error)) true]
    | (s1, none) =>
      Run.mk s1
        [Call.Println "Entering go-plugins-helpers startLoggingPath", Call.DecodeRequest r,
         Call.StartLogging req,
         Call.EncodeResponse Payload.empty false]

/-- The closure registered at `stopLoggingPath` (lines 90-103). -/
def stopLoggingHandler (dec : SDK Info ReadConfig) (driver : Driver σ Info ReadConfig ρ) :
    HandlerFunc σ Info ReadConfig ρ := fun s r =>
  match dec.DecodeStopLoggingRequest r StopLoggingRequest.zero with
  | Except.error _ =>
    Run.mk s
      [Call.Println "Entering go-plugins-helpers stopLoggingPath", Call.DecodeRequest r]
  | Except.ok req =>
    match driver.StopLogging s req with
    | (s1, some err) =>
      Run.mk s1
        [Call.Println "Entering go-plugins-helpers stopLoggingPath", Call.DecodeRequest r,
         Call.StopLogging req,
         Call.EncodeResponse (Payload.error (NewErrorResponse err.Error)) true]
    | (s1, none) =>
      Run.mk s1
        [Call.Println "Entering go-plugins-helpers stopLoggingPath", Call.DecodeRequest r,
         Call.StopLogging req,
         Call.EncodeResponse Payload.empty false]

/-- The closure registered at `readLogsPath` (lines 105-118). -/
def readLogsHandler (dec : SDK Info ReadConfig) (driver : Driver σ Info ReadConfig ρ) :
    HandlerFunc σ Info ReadConfig ρ := fun s r =>
  match dec.DecodeReadLogsRequest r ReadLogsRequest.zero with
  | Except.error _ =>
    Run.mk s
      [Call.Println "Entering go-plugins-helpers readLogsPath", Call.DecodeRequest r]
  | Except.ok req =>
    match driver.ReadLogs s req with
    | (s1, _, some err) =>
      Run.mk s1
        [Call.Println "Entering go-plugins-helpers readLogsPath", Call.DecodeRequest r,
         Call.ReadLogs req,
         Call.EncodeResponse (Payload.error (NewErrorResponse err.Error)) true]
    | (s1, res, none) =>
      Run.mk s1
        [Call.Println "Entering go-plugins-helpers readLogsPath", Call.DecodeRequest r,
         Call.ReadLogs req,
         Call.EncodeResponse (Payload.readLogs res) false]

/-- The closure registered at `capabilitiesPath` (lines 120-123). -/
def capabilitiesHandler (driver : Driver σ Info ReadConfig ρ) :
    HandlerFunc σ Info ReadConfig ρ := fun s _ =>
  match driver.Capabilities s with
  | (s1, c) =>
    Run.mk s1
      [Call.Println "Entering go-plugins-helpers capabilitiesPath",
       Call.Capabilities,
       Call.EncodeResponse (Payload.capabilities c) false]

end handlers

/-! ## What a list of calls shows -/

/-- The four methods of `Driver`. -/
inductive Method where
  | StartLogging
  | StopLogging
  | ReadLogs
  | Capabilities
  deriving DecidableEq

section observations

variable {Info ReadConfig ρ : Type}

/-- The driver method a call invokes, `none` for a call that is not a call of
the driver. -/
def Call.method : Call Info ReadConfig ρ → Option Method
  | Call.StartLogging _ => some Method.StartLogging
  | Call.StopLogging _ => some Method.StopLogging
  | Call.ReadLogs _ => some Method.ReadLogs
  | Call.Capabilities => some Method.Capabilities
  | _ => none

/-- The driver methods invoked, in order, one entry for each invocation. -/
def methodsCalled (calls : List (Call Info ReadConfig ρ)) : List Method :=
  calls.filterMap Call.method

/-- The arguments of a call of `sdk.EncodeResponse`. -/
def Call.encoded : Call Info ReadConfig ρ → Option (Payload ρ × Bool)
  | Call.EncodeResponse res err => some (res, err)
  | _ => none

/-- The calls of the driver, in order, with their arguments. -/
def driverCalls (calls : List (Call Info ReadConfig ρ)) : List (Call Info ReadConfig ρ) :=
  calls.filter (fun c => c.method.isSome)

/-- The calls of `sdk.EncodeResponse`, in order: payload and error flag. -/
def encoded (calls : List (Call Info ReadConfig ρ)) : List (Payload ρ × Bool) :=
  calls.filterMap Call.encoded

/-- The request a call of `sdk.DecodeRequest` was given. -/
def Call.decoded : Call Info ReadConfig ρ → Option Request
  | Call.DecodeRequest r => some r
  | _ => none

/-- The calls of `sdk.DecodeRequest`, in order. -/
def decodeCalls (calls : List (Call Info ReadConfig ρ)) : List Request :=
  calls.filterMap Call.decoded

/-- Whether a payload is an error payload. -/
def Payload.isError : Payload ρ → Bool
  | Payload.error _ => true
  | _ => false

/-- The three shapes of a response: the empty success body, a typed success
payload, an error payload. -/
def Payload.IsShape (p : Payload ρ) (err : Bool) : Prop :=
  (p = Payload.empty ∧ err = false) ∨
  ((∃ res, p = Payload.readLogs res) ∧ err = false) ∨
  ((∃ c, p = Payload.capabilities c) ∧ err = false) ∨
  (∃ msg, p = Payload.error (ErrorResponse.mk msg))

/-- The handler encoded exactly one response, of one of the three shapes. -/
def OneResponse (calls : List (Call Info ReadConfig ρ)) : Prop :=
  ∃ p err, encoded calls = [(p, err)] ∧ p.IsShape err

end observations

/-! ## The mux and `NewHandler` (api.go, lines 60-71) -/

/-- Modelled from the spec: the type `sdk.Handler`, which `Handler` embeds, is
not part of the sources.  The spec calls the adapter "a dispatch table mapping
four fixed routes to four interface methods": the mux is the table of the
routes registered so far, a path and its closure in each row. -/
structure sdk.Handler (σ Info ReadConfig ρ : Type) where
  mux : List (String × HandlerFunc σ Info ReadConfig ρ)

/-- Modelled from the spec: the method `HandleFunc` of `sdk.Handler` is not
part of the sources; registering a route adds one row to the table. -/
def sdk.Handler.HandleFunc {σ Info ReadConfig ρ : Type} (h : sdk.Handler σ Info ReadConfig ρ)
    (path : String) (fn : HandlerFunc σ Info ReadConfig ρ) : sdk.Handler σ Info ReadConfig ρ :=
  sdk.Handler.mk (h.mux ++ [(path, fn)])

/-- Handler forwards requests and responses between the docker daemon and the plugin. -/
structure Handler (σ Info ReadConfig ρ : Type) where
  driver : Driver σ Info ReadConfig ρ
  /-- The embedded field `sdk.Handler`. -/
  sdk : sdk.Handler σ Info ReadConfig ρ

section mux

variable {σ Info ReadConfig ρ : Type} [Inhabited Info] [Inhabited ReadConfig]

/-- The method `initMux` (lines 73-124): four calls of `h.HandleFunc`, in the
order of the source. -/
def Handler.initMux (dec : SDK Info ReadConfig) (h : Handler σ Info ReadConfig ρ) :
    Handler σ Info ReadConfig ρ :=
  let h1 := Handler.mk h.driver
    (h.sdk.HandleFunc startLoggingPath (startLoggingHandler dec h.driver))
  let h2 := Handler.mk h1.driver
    (h1.sdk.HandleFunc stopLoggingPath (stopLoggingHandler dec h1.driver))
  let h3 := Handler.mk h2.driver
    (h2.sdk.HandleFunc readLogsPath (readLogsHandler dec h2.driver))
  Handler.mk h3.driver
    (h3.sdk.HandleFunc capabilitiesPath (capabilitiesHandler h3.driver))

/-- NewHandler initializes the request handler with a driver implementation.
`newSdkHandler` is `sdk.NewHandler`, which is not part of the sources: whatever
handler it builds from the manifest is the one `initMux` adds its routes to. -/
def NewHandler (dec : SDK Info ReadConfig)
    (newSdkHandler : String → sdk.Handler σ Info ReadConfig ρ)
    (driver : Driver σ Info ReadConfig ρ) : Handler σ Info ReadConfig ρ :=
  Handler.initMux dec (Handler.mk driver (newSdkHandler manifest))

end mux

/-! ## The sdk

`sdk.DecodeRequest` and `sdk.EncodeResponse` are called by the handlers and
defined in package `sdk` of go-plugins-helpers, which is not part of the
sources read here.  The definitions of this section follow that package.

* `DecodeRequest(w, r, req)` runs `json.NewDecoder(r.Body).Decode(req)`; when
  that returns an error it answers the request with `http.Error` and the
  status `http.StatusBadRequest`, and returns the error.
* `EncodeResponse(w, res, err)` sets the content type, writes the header with
  `http.StatusInternalServerError` when `err` is set, and encodes `res` as
  JSON.

`Decode` of `encoding/json` reads the first JSON value of the body and stores
it in the struct the way `Unmarshal` does.  The scanner and the unquoting of
strings are written out below.  Not modelled: the text of a decode error (the
handlers never read it), and the limit the library puts on the depth of
nesting. -/

/-- A JSON value. -/
inductive Json where
  | null
  | bool (b : Bool)
  | number (text : String)
  | str (s : String)
  | arr (items : List Json)
  | obj (members : List (String × Json))

/-- White space of the JSON grammar: space, tab, line feed, carriage return. -/
def json.isSpace (c : Char) : Bool :=
  c.toNat == 32 || c.toNat == 9 || c.toNat == 10 || c.toNat == 13

/-- Drops leading white space. -/
def json.skipSpace : List Char → List Char
  | [] => []
  | c :: cs => if json.isSpace c then json.skipSpace cs else c :: cs

/-- The digits `0` to `9`. -/
def json.isDigit (c : Char) : Bool := 48 ≤ c.toNat && c.toNat ≤ 57

/-- The value of a hexadecimal digit. -/
def json.hex (c : Char) : Option Nat :=
  if 48 ≤ c.toNat && c.toNat ≤ 57 then some (c.toNat - 48)
  else if 97 ≤ c.toNat && c.toNat ≤ 102 then some (c.toNat - 87)
  else if 65 ≤ c.toNat && c.toNat ≤ 70 then some (c.toNat - 55)
  else none

/-- Four hexadecimal digits, as after `\u` in a string: their value and the
rest of the input. -/
def json.getu4 : List Char → Option (Nat × List Char)
  | a :: b :: c :: d :: rest =>
    match json.hex a, json.hex b, json.hex c, json.hex d with
    | some x, some y, some z, some w => some (((x * 16 + y) * 16 + z) * 16 + w, rest)
    | _, _, _, _ => none
  | _ => none

/-- The character a one-letter escape stands for: the letter after the
backslash is one of quote (34), backslash (92), slash (47), `b`, `f`, `n`,
`r`, `t`. -/
def json.escape (e : Char) : Option Char :=
  if e.toNat == 34 then some (Char.ofNat 34)
  else if e.toNat == 92 then some (Char.ofNat 92)
  else if e.toNat == 47 then some (Char.ofNat 47)
  else if e.toNat == 98 then some (Char.ofNat 8)
  else if e.toNat == 102 then some (Char.ofNat 12)
  else if e.toNat == 110 then some (Char.ofNat 10)
  else if e.toNat == 114 then some (Char.ofNat 13)
  else if e.toNat == 116 then some (Char.ofNat 9)
  else none

/-- Scans a string from behind its opening quote to its closing quote (34)
and unquotes it: `acc` holds the characters read so far, in reverse.  A
control character (below 32) or an unknown escape is an error.  A `\u` escape
in the surrogate range (55296 to 57343) is joined with a following low
surrogate escape into one character, and replaced by U+FFFD (65533) when no
such pair is there.  One unit of fuel is used for each step; the length of the
input is enough. -/
def json.scanString : Nat → List Char → List Char → Option (String × List Char)
  | 0, _, _ => none
  | _ + 1, [], _ => none
  | n + 1, c :: cs, acc =>
    if c.toNat == 34 then some (String.mk acc.reverse, cs)
    else if c.toNat == 92 then
      match cs with
      | [] => none
      | e :: cs1 =>
        if e.toNat == 117 then
          match json.getu4 cs1 with
          | none => none
          | some (rr, cs2) =>
            if 55296 ≤ rr && rr < 57344 then
              match cs2 with
              | b :: u :: cs3 =>
                if b.toNat == 92 && u.toNat == 117 then
                  match json.getu4 cs3 with
                  | some (rr1, cs4) =>
                    if rr < 56320 && 56320 ≤ rr1 && rr1 < 57344 then
                      json.scanString n cs4
                        (Char.ofNat ((rr - 55296) * 1024 + (rr1 - 56320) + 65536) :: acc)
                    else json.scanString n cs2 (Char.ofNat 65533 :: acc)
                  | none => json.scanString n cs2 (Char.ofNat 65533 :: acc)
                else json.scanString n cs2 (Char.ofNat 65533 :: acc)
              | _ => json.scanString n cs2 (Char.ofNat 65533 :: acc)
            else json.scanString n cs2 (Char.ofNat rr :: acc)
        else
          match json.escape e with
          | some x => json.scanString n cs1 (x :: acc)
          | none => none
    else if c.toNat < 32 then none
    else json.scanString n cs (c :: acc)

/-- Splits the input into its leading digits and the rest. -/
def json.digits : List Char → List Char × List Char
  | [] => ([], [])
  | c :: cs =>
    if json.isDigit c then ((json.digits cs).1.cons c, (json.digits cs).2) else ([], c :: cs)

/-- The exponent of a number, if there is one: `e` or `E` (101, 69), a sign
(43, 45) or none, one digit at least. -/
def json.scanExp (acc : List Char) (cs : List Char) : Option (List Char × List Char) :=
  match cs with
  | e :: r =>
    if e.toNat == 101 || e.toNat == 69 then
      match r with
      | sg :: r1 =>
        if sg.toNat == 43 || sg.toNat == 45 then
          match json.digits r1 with
          | ([], _) => none
          | (ds, r2) => some (acc ++ e :: sg :: ds, r2)
        else
          match json.digits r with
          | ([], _) => none
          | (ds, r2) => some (acc ++ e :: ds, r2)
      | [] => none
    else some (acc, cs)
  | [] => some (acc, [])

/-- The fraction of a number, if there is one: a dot (46) and one digit at
least; then the exponent. -/
def json.scanFrac (acc : List Char) (cs : List Char) : Option (List Char × List Char) :=
  match cs with
  | d :: r =>
    if d.toNat == 46 then
      match json.digits r with
      | ([], _) => none
      | (ds, r1) => json.scanExp (acc ++ d :: ds) r1
    else json.scanExp acc cs
  | [] => some (acc, [])

/-- The integer part of a number: `0`, or a digit from `1` to `9` and more
digits; then fraction and exponent. -/
def json.scanInt (acc : List Char) (cs : List Char) : Option (List Char × List Char) :=
  match cs with
  | d :: r =>
    if d.toNat == 48 then json.scanFrac (acc ++ [d]) r
    else if 49 ≤ d.toNat && d.toNat ≤ 57 then
      json.scanFrac (acc ++ d :: (json.digits r).1) (json.digits r).2
    else none
  | [] => none

/-- Scans a number: its text and the rest of the input.  A number ends
before the first character that cannot continue it. -/
def json.scanNumber (cs : List Char) : Option (List Char × List Char) :=
  match cs with
  | c :: r => if c.toNat == 45 then json.scanInt [c] r else json.scanInt [] cs
  | [] => none

/-- The input behind the word `w`, when the input starts with it. -/
def json.expect : List Char → List Char → Option (List Char)
  | [], cs => some cs
  | _ :: _, [] => none
  | w :: ws, c :: cs => if w = c then json.expect ws cs else none

/-- Scans a value that is not an object or an array, from its first character
`c`: a string (34 is the quote), one of the words `true`, `false` and `null`
(116, 102 and 110 are their first letters), or a number. -/
def json.scalar (c : Char) (rest : List Char) : Option (Json × List Char) :=
  if c.toNat == 34 then
    match json.scanString rest.length rest [] with
    | some (s, rest1) => some (Json.str s, rest1)
    | none => none
  else if c.toNat == 116 then
    match json.expect "rue".data rest with
    | some rest1 => some (Json.bool true, rest1)
    | none => none
  else if c.toNat == 102 then
    match json.expect "alse".data rest with
    | some rest1 => some (Json.bool false, rest1)
    | none => none
  else if c.toNat == 110 then
    match json.expect "ull".data rest with
    | some rest1 => some (Json.null, rest1)
    | none => none
  else
    match json.scanNumber (c :: rest) with
    | some (text, rest1) => some (Json.number (String.mk text), rest1)
    | none => none

/-- Scans the key of a member and the colon (58) behind it: the key, unquoted,
and the input behind the colon. -/
def json.key (cs : List Char) : Option (String × List Char) :=
  match json.skipSpace cs with
  | [] => none
  | q :: r =>
    if q.toNat == 34 then
      match json.scanString r.length r [] with
      | none => none
      | some (key, r1) =>
        match json.skipSpace r1 with
        | [] => none
        | colon :: r2 => if colon.toNat == 58 then some (key, r2) else none
    else none

/-- Behind a member or an element: a comma (44), and more follow (`true`), or
the closing character `close`, and none do (`false`). -/
def json.next (close : Nat) (cs : List Char) : Option (Bool × List Char) :=
  match json.skipSpace cs with
  | [] => none
  | d :: r =>
    if d.toNat == 44 then some (true, r)
    else if d.toNat == close then some (false, r)
    else none

/-- Behind an opening brace or bracket: the closing character `close` at
once (`true`), or the start of the first member or element (`false`). -/
def json.opened (close : Nat) (cs : List Char) : Option (Bool × List Char) :=
  match json.skipSpace cs with
  | [] => none
  | d :: r => if d.toNat == close then some (true, r) else some (false, d :: r)

/-! The three scanners below call each other; the fuel goes down by one at
each call. -/

mutual

/-- Scans one JSON value behind leading white space: the value and the rest
of the input.  Codes: 123 and 125 are the braces, 91 and 93 the brackets. -/
def json.value : Nat → List Char → Option (Json × List Char)
  | 0, _ => none
  | n + 1, cs =>
    match json.skipSpace cs with
    | [] => none
    | c :: rest =>
      if c.toNat == 123 then
        match json.opened 125 rest with
        | none => none
        | some (true, r) => some (Json.obj [], r)
        | some (false, r) =>
          match json.members n r with
          | some (ms, r1) => some (Json.obj ms, r1)
          | none => none
      else if c.toNat == 91 then
        match json.opened 93 rest with
        | none => none
        | some (true, r) => some (Json.arr [], r)
        | some (false, r) =>
          match json.elements n r with
          | some (vs, r1) => some (Json.arr vs, r1)
          | none => none
      else json.scalar c rest

/-- Scans the members of an object from its first key to its closing brace. -/
def json.members : Nat → List Char → Option (List (String × Json) × List Char)
  | 0, _ => none
  | n + 1, cs =>
    match json.key cs with
    | none => none
    | some (key, r) =>
      match json.value n r with
      | none => none
      | some (v, r1) =>
        match json.next 125 r1 with
        | none => none
        | some (true, r2) =>
          match json.members n r2 with
          | some (ms, r3) => some ((key, v) :: ms, r3)
          | none => none
        | some (false, r2) => some ([(key, v)], r2)

/-- Scans the elements of an array from its first element to its closing
bracket. -/
def json.elements : Nat → List Char → Option (List Json × List Char)
  | 0, _ => none
  | n + 1, cs =>
    match json.value n cs with
    | none => none
    | some (v, r) =>
      match json.next 93 r with
      | none => none
      | some (true, r1) =>
        match json.elements n r1 with
        | some (vs, r2) => some (v :: vs, r2)
        | none => none
      | some (false, r1) => some ([v], r1)

end

/-- The first JSON value of a body, and what follows it in the body; `none`
when the body does not start (behind white space) with a well-formed value.
The fuel is the length of the body plus one, which is enough
(`json.first_fuel`). -/
def json.first (body : String) : Option (Json × List Char) :=
  json.value (body.length + 1) body.data

/-- The letter case is ignored when the name of a member is compared with the
name of a field: capital letters (65 to 90) are read as small ones. -/
def json.fold (name : String) : List Nat :=
  name.data.map (fun c => if 65 ≤ c.toNat && c.toNat ≤ 90 then c.toNat + 32 else c.toNat)

/-- Whether a member named `key` is stored in the field named `field`.  (For
field names made of ASCII letters other than `k` and `s`, as the names of the
three request structs are.) -/
def json.matches (key field : String) : Bool :=
  json.fold key == json.fold field

/-- The schemas of the two host types, which belong to another repository:
storing a JSON value other than `null` in a `logger.Info`, or in a
`logger.ReadConfig`, that holds a value already; `none` when the value does not
fit the type. -/
structure Codec (Info ReadConfig : Type) where
  decodeInfo : Json → Info → Option Info
  decodeReadConfig : Json → ReadConfig → Option ReadConfig

section specsdk

variable {Info ReadConfig ρ : Type}

/-- Storing a JSON value in a field of type `string`: a string is stored, a
`null` leaves the field as it is, any other value does not fit. -/
def json.storeString (v : Json) (cur : String) : Option String :=
  match v with
  | Json.null => some cur
  | Json.str s => some s
  | _ => none

/-- Storing a JSON value in a field of a host type: a `null` leaves the
field as it is, any other value goes through the schema of the type. -/
def json.store {α : Type} (decode : Json → α → Option α) (v : Json) (cur : α) : Option α :=
  match v with
  | Json.null => some cur
  | _ => decode v cur

/-- Storing the members of a JSON object in a `StartLoggingRequest`, in the
order of the body.  A member is stored in the field of its name; a member
named after no field is skipped.  `none` when a value does not fit its
field. -/
def sdk.startLoggingFields (c : Codec Info ReadConfig) :
    List (String × Json) → StartLoggingRequest Info → Option (StartLoggingRequest Info)
  | [], req => some req
  | (key, v) :: rest, req =>
    if json.matches key "File" then
      match json.storeString v req.File with
      | some f => sdk.startLoggingFields c rest (StartLoggingRequest.mk f req.Info)
      | none => none
    else if json.matches key "Info" then
      match json.store c.decodeInfo v req.Info with
      | some i => sdk.startLoggingFields c rest (StartLoggingRequest.mk req.File i)
      | none => none
    else sdk.startLoggingFields c rest req

/-- Storing the members of a JSON object in a `StopLoggingRequest`. -/
def sdk.stopLoggingFields :
    List (String × Json) → StopLoggingRequest → Option StopLoggingRequest
  | [], req => some req
  | (key, v) :: rest, req =>
    if json.matches key "File" then
      match json.storeString v req.File with
      | some f => sdk.stopLoggingFields rest (StopLoggingRequest.mk f)
      | none => none
    else sdk.stopLoggingFields rest req

/-- Storing the members of a JSON object in a `ReadLogsRequest`. -/
def sdk.readLogsFields (c : Codec Info ReadConfig) :
    List (String × Json) → ReadLogsRequest ReadConfig Info →
      Option (ReadLogsRequest ReadConfig Info)
  | [], req => some req
  | (key, v) :: rest, req =>
    if json.matches key "ReadConfig" then
      match json.store c.decodeReadConfig v req.ReadConfig with
      | some rc => sdk.readLogsFields c rest (ReadLogsRequest.mk rc req.Info)
      | none => none
    else if json.matches key "Info" then
      match json.store c.decodeInfo v req.Info with
      | some i => sdk.readLogsFields c rest (ReadLogsRequest.mk req.ReadConfig i)
      | none => none
    else sdk.readLogsFields c rest req

/-- The function `sdk.DecodeRequest`, as far as the handler sees it: the error
it returns and the struct it leaves.  The first JSON value of the body is
decoded; what follows it in the body is not read.  `null` leaves the struct as
it is, an object is stored member by member (`fields`), any other value does
not fit a struct.  (When it fails, `sdk.DecodeRequest` also answers the request
itself, with status 400 and the text of the error.) -/
def sdk.DecodeRequest {α : Type} (fields : List (String × Json) → α → Option α)
    (r : Request) (req : α) : Except GoError α :=
  match json.first r.Body with
  | none => Except.error (GoError.mk "json: the body does not start with a JSON value")
  | some (Json.null, _) => Except.ok req
  | some (Json.obj members, _) =>
    match fields members req with
    | some v => Except.ok v
    | none => Except.error (GoError.mk "json: cannot unmarshal a member into its field")
  | some (_, _) => Except.error (GoError.mk "json: cannot unmarshal the value into a struct")

/-- The sdk at the three request types. -/
def sdk.decoder (c : Codec Info ReadConfig) : SDK Info ReadConfig :=
  SDK.mk
    (sdk.DecodeRequest (sdk.startLoggingFields c))
    (sdk.DecodeRequest sdk.stopLoggingFields)
    (sdk.DecodeRequest (sdk.readLogsFields c))

/-- An HTTP response as the host receives it. -/
structure Response (ρ : Type) where
  StatusCode : Nat
  Body : Payload ρ

/-- The function `sdk.EncodeResponse`: the payload is written with status 500
(`http.StatusInternalServerError`) when the error flag is set, and with the
status 200 of a response whose header was not written when it is not.  `w` is
the list of the responses written so far. -/
def sdk.EncodeResponse (w : List (Response ρ)) (res : Payload ρ) (err : Bool) :
    List (Response ρ) :=
  w ++ [Response.mk (if err then 500 else 200) res]

/-- The responses the calls of `sdk.EncodeResponse` among `calls` write, in
order, starting from the writer `w`.  The handlers write through
`sdk.EncodeResponse` only. -/
def written (w : List (Response ρ)) : List (Call Info ReadConfig ρ) → List (Response ρ)
  | [] => w
  | Call.EncodeResponse res err :: rest => written (sdk.EncodeResponse w res err) rest
  | _ :: rest => written w rest

/-- Modelled from the spec: the JSON encoding happens inside
`sdk.EncodeResponse`; an error payload has "the shape" of an object with the
single member `Err`, the message. -/
def ErrorResponse.wire (e : ErrorResponse) : Json :=
  Json.obj [("Err", Json.str e.Err)]

end specsdk

/-! ## A concrete driver and codec

Used to evaluate the handlers on concrete requests.  `logger.Info` is
represented by a container id (a string) and `logger.ReadConfig` by its
`Follow` flag (a boolean); results of `ReadLogs` are lists of lines. -/

/-- The body `{}`. -/
def bodyEmptyObject : String := "\x7b\x7d"

/-- The body `{"File":"/run/fifo"}`. -/
def bodyFile : String := "\x7b\"File\":\"/run/fifo\"\x7d"

/-- The body `{"File":"/run/fifo","Info":"c1"}`. -/
def bodyFileInfo : String := "\x7b\"File\":\"/run/fifo\",\"Info\":\"c1\"\x7d"

/-- The body `{"ReadConfig":true,"Info":"c1"}`. -/
def bodyReadConfigInfo : String := "\x7b\"ReadConfig\":true,\"Info\":\"c1\"\x7d"

/-- The body `{"File":"/run/fifo","Extra":true}`: a member no schema has. -/
def bodyExtraMember : String := "\x7b\"File\":\"/run/fifo\",\"Extra\":true\x7d"

/-- The body `{"file":"/run/fifo"} trailing`: the name of the field in small
letters, and text behind the value. -/
def bodyFoldedTrailing : String := "\x7b\"file\":\"/run/fifo\"\x7d trailing"

/-- The body `null`. -/
def bodyNull : String := "null"

/-- The body `{"File":7}`: a member of the wrong type. -/
def bodyWrongType : String := "\x7b\"File\":7\x7d"

/-- The body `[1, 2]`: a JSON value that is not an object. -/
def bodyArray : String := "[1, 2]"

/-- A body that is not JSON. -/
def bodyNotJson : String := "not json"

/-- The codec of the concrete instance. -/
def demoCodec : Codec String Bool :=
  Codec.mk
    (fun v _ => match v with
      | Json.str id => some id
      | _ => none)
    (fun v _ => match v with
      | Json.bool follow => some follow
      | _ => none)

/-- A driver that keeps the list of the files it is logging.  It refuses to
start on an empty file name, to stop a file it is not logging, and to read
the logs of a container without an id. -/
def demoDriver : Driver (List String) String Bool (List String) :=
  Driver.mk
    (fun s req =>
      if req.File = "" then (s, some (GoError.mk "file is required"))
      else (s ++ [req.File], none))
    (fun s req =>
      if req.File ∈ s then (s.erase req.File, none)
      else (s, some (GoError.mk "logger not found")))
    (fun s req =>
      if req.Info = "" then (s, [], some (GoError.mk "container id is required"))
      else (s, ["line 1", "line 2"], none))
    (fun s => (s, some (CapabilitiesResponse.mk true)))

/-- A driver with `ReadLogs` as the interface declares it at line 56: the
error is its only result.  It refuses to read the logs of a container without
an id. -/
def declaredDriver : Driver (List String) String Bool Unit :=
  Driver.mk
    demoDriver.StartLogging
    demoDriver.StopLogging
    (fun s req =>
      if req.Info = "" then (s, (), some (GoError.mk "container id is required"))
      else (s, (), none))
    demoDriver.Capabilities

/-- A POST request to `path` with the given body. -/
def demoRequest (path body : String) : Request :=
  Request.mk "POST" path [("Content-Type", "application/json")] body

/-! ## Refused requests -/

section refused

variable {σ Info ReadConfig ρ : Type}

/-- The request fails to decode as a `StartLoggingRequest`, and the
start-logging closure invokes no method of the driver for it. -/
def RefusedByStartLogging [Inhabited Info] (c : Codec Info ReadConfig)
    (driver : Driver σ Info ReadConfig ρ) (s : σ) (r : Request) : Prop :=
  (∃ e, (sdk.decoder c).DecodeStartLoggingRequest r StartLoggingRequest.zero =
    Except.error e) ∧
  methodsCalled (startLoggingHandler (sdk.decoder c) driver s r).calls = []

/-- The request fails to decode as a `StopLoggingRequest`, and the
stop-logging closure invokes no method of the driver for it. -/
def RefusedByStopLogging (c : Codec Info ReadConfig)
    (driver : Driver σ Info ReadConfig ρ) (s : σ) (r : Request) : Prop :=
  (∃ e, (sdk.decoder c).DecodeStopLoggingRequest r StopLoggingRequest.zero =
    Except.error e) ∧
  methodsCalled (stopLoggingHandler (sdk.decoder c) driver s r).calls = []

/-- The request fails to decode as a `ReadLogsRequest`, and the read-logs
closure invokes no method of the driver for it. -/
def RefusedByReadLogs [Inhabited ReadConfig] [Inhabited Info] (c : Codec Info ReadConfig)
    (driver : Driver σ Info ReadConfig ρ) (s : σ) (r : Request) : Prop :=
  (∃ e, (sdk.decoder c).DecodeReadLogsRequest r ReadLogsRequest.zero =
    Except.error e) ∧
  methodsCalled (readLogsHandler (sdk.decoder c) driver s r).calls = []

end refused

/-! ## Running a handler, case by case -/

section runs

variable {σ Info ReadConfig ρ : Type}

theorem startLoggingHandler_decode_error [Inhabited Info] (dec : SDK Info ReadConfig)
    (driver : Driver σ Info ReadConfig ρ) (s : σ) (r : Request) (e : GoError)
    (h : dec.DecodeStartLoggingRequest r StartLoggingRequest.zero = Except.error e) :
    startLoggingHandler dec driver s r =
      Run.mk s
        [Call.Println "Entering go-plugins-helpers startLoggingPath", Call.DecodeRequest r] := by
  simp only [startLoggingHandler, h]

theorem stopLoggingHandler_decode_error (dec : SDK Info ReadConfig)
    (driver : Driver σ Info ReadConfig ρ) (s : σ) (r : Request) (e : GoError)
    (h : dec.DecodeStopLoggingRequest r StopLoggingRequest.zero = Except.error e) :
    stopLoggingHandler dec driver s r =
      Run.mk s
        [Call.Println "Entering go-plugins-helpers stopLoggingPath", Call.DecodeRequest r] := by
  simp only [stopLoggingHandler, h]

theorem readLogsHandler_decode_error [Inhabited ReadConfig] [Inhabited Info]
    (dec : SDK Info ReadConfig)
    (driver : Driver σ Info ReadConfig ρ) (s : σ) (r : Request) (e : GoError)
    (h : dec.DecodeReadLogsRequest r ReadLogsRequest.zero = Except.error e) :
    readLogsHandler dec driver s r =
      Run.mk s
        [Call.Println "Entering go-plugins-helpers readLogsPath", Call.DecodeRequest r] := by
  simp only [readLogsHandler, h]

theorem startLoggingHandler_driver_error [Inhabited Info] (dec : SDK Info ReadConfig)
    (driver : Driver σ Info ReadConfig ρ) (s : σ) (r : Request)
    (req : StartLoggingRequest Info) (e : GoError)
    (h : dec.DecodeStartLoggingRequest r StartLoggingRequest.zero = Except.ok req)
    (hd : (driver.StartLogging s req).2 = some e) :
    startLoggingHandler dec driver s r =
      Run.mk (driver.StartLogging s req).1
        [Call.Println "Entering go-plugins-helpers startLoggingPath", Call.DecodeRequest r,
         Call.StartLogging req,
         Call.EncodeResponse (Payload.error (NewErrorResponse e.Error)) true] := by
  rcases hr : driver.StartLogging s req with ⟨s1, err⟩
  rw [hr] at hd
  simp only at hd
  subst hd
  simp only [startLoggingHandler, h, hr]

theorem startLoggingHandler_success [Inhabited Info] (dec : SDK Info ReadConfig)
    (driver : Driver σ Info ReadConfig ρ) (s : σ) (r : Request)
    (req : StartLoggingRequest Info)
    (h : dec.DecodeStartLoggingRequest r StartLoggingRequest.zero = Except.ok req)
    (hd : (driver.StartLogging s req).2 = none) :
    startLoggingHandler dec driver s r =
      Run.mk (driver.StartLogging s req).1
        [Call.Println "Entering go-plugins-helpers startLoggingPath", Call.DecodeRequest r,
         Call.StartLogging req,
         Call.EncodeResponse Payload.empty false] := by
  rcases hr : driver.StartLogging s req with ⟨s1, err⟩
  rw [hr] at hd
  simp only at hd
  subst hd
  simp only [startLoggingHandler, h, hr]

theorem stopLoggingHandler_driver_error (dec : SDK Info ReadConfig)
    (driver : Driver σ Info ReadConfig ρ) (s : σ) (r : Request)
    (req : StopLoggingRequest) (e : GoError)
    (h : dec.DecodeStopLoggingRequest r StopLoggingRequest.zero = Except.ok req)
    (hd : (driver.StopLogging s req).2 = some e) :
    stopLoggingHandler dec driver s r =
      Run.mk (driver.StopLogging s req).1
        [Call.Println "Entering go-plugins-helpers stopLoggingPath", Call.DecodeRequest r,
         Call.StopLogging req,
         Call.EncodeResponse (Payload.error (NewErrorResponse e.Error)) true] := by
  rcases hr : driver.StopLogging s req with ⟨s1, err⟩
  rw [hr] at hd
  simp only at hd
  subst hd
  simp only [stopLoggingHandler, h, hr]

theorem stopLoggingHandler_success (dec : SDK Info ReadConfig)
    (driver : Driver σ Info ReadConfig ρ) (s : σ) (r : Request)
    (req : StopLoggingRequest)
    (h : dec.DecodeStopLoggingRequest r StopLoggingRequest.zero = Except.ok req)
    (hd : (driver.StopLogging s req).2 = none) :
    stopLoggingHandler dec driver s r =
      Run.mk (driver.StopLogging s req).1
        [Call.Println "Entering go-plugins-helpers stopLoggingPath", Call.DecodeRequest r,
         Call.StopLogging req,
         Call.EncodeResponse Payload.empty false] := by
  rcases hr : driver.StopLogging s req with ⟨s1, err⟩
  rw [hr] at hd
  simp only at hd
  subst hd
  simp only [stopLoggingHandler, h, hr]

theorem readLogsHandler_driver_error [Inhabited ReadConfig] [Inhabited Info]
    (dec : SDK Info ReadConfig)
    (driver : Driver σ Info ReadConfig ρ) (s : σ) (r : Request)
    (req : ReadLogsRequest ReadConfig Info) (e : GoError)
    (h : dec.DecodeReadLogsRequest r ReadLogsRequest.zero = Except.ok req)
    (hd : (driver.ReadLogs s req).2.2 = some e) :
    readLogsHandler dec driver s r =
      Run.mk (driver.ReadLogs s req).1
        [Call.Println "Entering go-plugins-helpers readLogsPath", Call.DecodeRequest r,
         Call.ReadLogs req,
         Call.EncodeResponse (Payload.error (NewErrorResponse e.Error)) true] := by
  rcases hr : driver.ReadLogs s req with ⟨s1, res, err⟩
  rw [hr] at hd
  simp only at hd
  subst hd
  simp only [readLogsHandler, h, hr]

theorem readLogsHandler_success [Inhabited ReadConfig] [Inhabited Info]
    (dec : SDK Info ReadConfig)
    (driver : Driver σ Info ReadConfig ρ) (s : σ) (r : Request)
    (req : ReadLogsRequest ReadConfig Info)
    (h : dec.DecodeReadLogsRequest r ReadLogsRequest.zero = Except.ok req)
    (hd : (driver.ReadLogs s req).2.2 = none) :
    readLogsHandler dec driver s r =
      Run.mk (driver.ReadLogs s req).1
        [Call.Println "Entering go-plugins-helpers readLogsPath", Call.DecodeRequest r,
         Call.ReadLogs req,
         Call.EncodeResponse (Payload.readLogs (driver.ReadLogs s req).2.1) false] := by
  rcases hr : driver.ReadLogs s req with ⟨s1, res, err⟩
  rw [hr] at hd
  simp only at hd
  subst hd
  simp only [readLogsHandler, h, hr]

theorem capabilitiesHandler_run (driver : Driver σ Info ReadConfig ρ) (s : σ) (r : Request) :
    capabilitiesHandler driver s r =
      Run.mk (driver.Capabilities s).1
        [Call.Println "Entering go-plugins-helpers capabilitiesPath",
         Call.Capabilities,
         Call.EncodeResponse (Payload.capabilities (driver.Capabilities s).2) false] := by
  rfl

/-- The three ways the start-logging closure can run. -/
theorem startLoggingHandler_cases [Inhabited Info] (dec : SDK Info ReadConfig)
    (driver : Driver σ Info ReadConfig ρ) (s : σ) (r : Request) :
    (∃ e, dec.DecodeStartLoggingRequest r StartLoggingRequest.zero = Except.error e) ∨
    (∃ req e, dec.DecodeStartLoggingRequest r StartLoggingRequest.zero = Except.ok req ∧
      (driver.StartLogging s req).2 = some e) ∨
    (∃ req, dec.DecodeStartLoggingRequest r StartLoggingRequest.zero = Except.ok req ∧
      (driver.StartLogging s req).2 = none) := by
  rcases hdec : dec.DecodeStartLoggingRequest r StartLoggingRequest.zero with e | req
  · exact Or.inl ⟨e, rfl⟩
  · rcases hd : (driver.StartLogging s req).2 with _ | e
    · exact Or.inr (Or.inr ⟨req, rfl, hd⟩)
    · exact Or.inr (Or.inl ⟨req, e, rfl, hd⟩)

/-- The three ways the stop-logging closure can run. -/
theorem stopLoggingHandler_cases (dec : SDK Info ReadConfig)
    (driver : Driver σ Info ReadConfig ρ) (s : σ) (r : Request) :
    (∃ e, dec.DecodeStopLoggingRequest r StopLoggingRequest.zero = Except.error e) ∨
    (∃ req e, dec.DecodeStopLoggingRequest r StopLoggingRequest.zero = Except.ok req ∧
      (driver.StopLogging s req).2 = some e) ∨
    (∃ req, dec.DecodeStopLoggingRequest r StopLoggingRequest.zero = Except.ok req ∧
      (driver.StopLogging s req).2 = none) := by
  rcases hdec : dec.DecodeStopLoggingRequest r StopLoggingRequest.zero with e | req
  · exact Or.inl ⟨e, rfl⟩
  · rcases hd : (driver.StopLogging s req).2 with _ | e
    · exact Or.inr (Or.inr ⟨req, rfl, hd⟩)
    · exact Or.inr (Or.inl ⟨req, e, rfl, hd⟩)

/-- The three ways the read-logs closure can run. -/
theorem readLogsHandler_cases [Inhabited ReadConfig] [Inhabited Info]
    (dec : SDK Info ReadConfig)
    (driver : Driver σ Info ReadConfig ρ) (s : σ) (r : Request) :
    (∃ e, dec.DecodeReadLogsRequest r ReadLogsRequest.zero = Except.error e) ∨
    (∃ req e, dec.DecodeReadLogsRequest r ReadLogsRequest.zero = Except.ok req ∧
      (driver.ReadLogs s req).2.2 = some e) ∨
    (∃ req, dec.DecodeReadLogsRequest r ReadLogsRequest.zero = Except.ok req ∧
      (driver.ReadLogs s req).2.2 = none) := by
  rcases hdec : dec.DecodeReadLogsRequest r ReadLogsRequest.zero with e | req
  · exact Or.inl ⟨e, rfl⟩
  · rcases hd : (driver.ReadLogs s req).2.2 with _ | e
    · exact Or.inr (Or.inr ⟨req, rfl, hd⟩)
    · exact Or.inr (Or.inl ⟨req, e, rfl, hd⟩)

/-- The driver calls of the start-logging closure depend on the request only
through what the decoder makes of it. -/
theorem startLoggingHandler_driverCalls_congr [Inhabited Info] (dec : SDK Info ReadConfig)
    (driver : Driver σ Info ReadConfig ρ) (s : σ) (r r2 : Request)
    (h : dec.DecodeStartLoggingRequest r StartLoggingRequest.zero =
      dec.DecodeStartLoggingRequest r2 StartLoggingRequest.zero) :
    driverCalls (startLoggingHandler dec driver s r).calls =
      driverCalls (startLoggingHandler dec driver s r2).calls := by
  rcases startLoggingHandler_cases dec driver s r with ⟨e, he⟩ | ⟨req, e, hr, hd⟩ | ⟨req, hr, hd⟩
  · rw [startLoggingHandler_decode_error dec driver s r e he,
      startLoggingHandler_decode_error dec driver s r2 e (h.symm.trans he)]
    rfl
  · rw [startLoggingHandler_driver_error dec driver s r req e hr hd,
      startLoggingHandler_driver_error dec driver s r2 req e (h.symm.trans hr) hd]
    rfl
  · rw [startLoggingHandler_success dec driver s r req hr hd,
      startLoggingHandler_success dec driver s r2 req (h.symm.trans hr) hd]
    rfl

/-- The driver calls of the stop-logging closure depend on the request only
through what the decoder makes of it. -/
theorem stopLoggingHandler_driverCalls_congr (dec : SDK Info ReadConfig)
    (driver : Driver σ Info ReadConfig ρ) (s : σ) (r r2 : Request)
    (h : dec.DecodeStopLoggingRequest r StopLoggingRequest.zero =
      dec.DecodeStopLoggingRequest r2 StopLoggingRequest.zero) :
    driverCalls (stopLoggingHandler dec driver s r).calls =
      driverCalls (stopLoggingHandler dec driver s r2).calls := by
  rcases stopLoggingHandler_cases dec driver s r with ⟨e, he⟩ | ⟨req, e, hr, hd⟩ | ⟨req, hr, hd⟩
  · rw [stopLoggingHandler_decode_error dec driver s r e he,
      stopLoggingHandler_decode_error dec driver s r2 e (h.symm.trans he)]
    rfl
  · rw [stopLoggingHandler_driver_error dec driver s r req e hr hd,
      stopLoggingHandler_driver_error dec driver s r2 req e (h.symm.trans hr) hd]
    rfl
  · rw [stopLoggingHandler_success dec driver s r req hr hd,
      stopLoggingHandler_success dec driver s r2 req (h.symm.trans hr) hd]
    rfl

/-- The driver calls of the read-logs closure depend on the request only
through what the decoder makes of it. -/
theorem readLogsHandler_driverCalls_congr [Inhabited ReadConfig] [Inhabited Info]
    (dec : SDK Info ReadConfig)
    (driver : Driver σ Info ReadConfig ρ) (s : σ) (r r2 : Request)
    (h : dec.DecodeReadLogsRequest r ReadLogsRequest.zero =
      dec.DecodeReadLogsRequest r2 ReadLogsRequest.zero) :
    driverCalls (readLogsHandler dec driver s r).calls =
      driverCalls (readLogsHandler dec driver s r2).calls := by
  rcases readLogsHandler_cases dec driver s r with ⟨e, he⟩ | ⟨req, e, hr, hd⟩ | ⟨req, hr, hd⟩
  · rw [readLogsHandler_decode_error dec driver s r e he,
      readLogsHandler_decode_error dec driver s r2 e (h.symm.trans he)]
    rfl
  · rw [readLogsHandler_driver_error dec driver s r req e hr hd,
      readLogsHandler_driver_error dec driver s r2 req e (h.symm.trans hr) hd]
    rfl
  · rw [readLogsHandler_success dec driver s r req hr hd,
      readLogsHandler_success dec driver s r2 req (h.symm.trans hr) hd]
    rfl

end runs


/-! ## The JSON scanner -/

/-- What a scanner leaves is no longer than what it was given. -/
theorem json.skipSpace_length : ∀ cs : List Char, (json.skipSpace cs).length ≤ cs.length
  | [] => Nat.le_refl _
  | c :: cs => by
    unfold json.skipSpace
    split
    · exact Nat.le_succ_of_le (json.skipSpace_length cs)
    · exact Nat.le_refl _

theorem json.getu4_length (cs : List Char) (n : Nat) (r : List Char)
    (h : json.getu4 cs = some (n, r)) : r.length + 4 = cs.length := by
  unfold json.getu4 at h
  split at h
  · split at h
    · simp only [Option.some.injEq, Prod.mk.injEq] at h
      rw [← h.2]
      simp
    · cases h
  · cases h

theorem json.scanString_length :
    ∀ (n : Nat) (cs acc : List Char) (s : String) (r : List Char),
      json.scanString n cs acc = some (s, r) → r.length < cs.length
  | 0, _, _, _, _, h => by simp [json.scanString] at h
  | n + 1, [], _, _, _, h => by simp [json.scanString] at h
  | n + 1, c :: cs, acc, s, r, h => by
    have ih := json.scanString_length n
    unfold json.scanString at h
    split at h
    · simp only [Option.some.injEq, Prod.mk.injEq] at h
      rw [← h.2]
      exact Nat.lt_succ_self _
    · split at h
      · split at h
        · cases h
        · rename_i e cs1
          split at h
          · split at h
            · cases h
            · rename_i rr cs2 hu
              have hlen := json.getu4_length _ _ _ hu
              split at h
              · split at h
                · rename_i b u cs3
                  split at h
                  · split at h
                    · rename_i rr1 cs4 hu1
                      have hlen1 := json.getu4_length _ _ _ hu1
                      split at h
                      · have := ih _ _ _ _ h
                        simp only [List.length_cons] at *
                        omega
                      · have := ih _ _ _ _ h
                        simp only [List.length_cons] at *
                        omega
                    · have := ih _ _ _ _ h
                      simp only [List.length_cons] at *
                      omega
                  · have := ih _ _ _ _ h
                    simp only [List.length_cons] at *
                    omega
                · have := ih _ _ _ _ h
                  simp only [List.length_cons] at *
                  omega
              · have := ih _ _ _ _ h
                simp only [List.length_cons] at *
                omega
          · split at h
            · have := ih _ _ _ _ h
              simp only [List.length_cons] at *
              omega
            · cases h
      · split at h
        · cases h
        · have := ih _ _ _ _ h
          simp only [List.length_cons] at *
          omega

theorem json.digits_length : ∀ cs : List Char, (json.digits cs).2.length ≤ cs.length
  | [] => Nat.le_refl _
  | c :: cs => by
    unfold json.digits
    split
    · exact Nat.le_succ_of_le (json.digits_length cs)
    · exact Nat.le_refl _

theorem json.scanExp_length (acc cs t r : List Char)
    (h : json.scanExp acc cs = some (t, r)) : r.length ≤ cs.length := by
  unfold json.scanExp at h
  split at h
  · rename_i e r0
    split at h
    · split at h
      · rename_i sg r1
        split at h
        · have hd := json.digits_length r1
          split at h
          · cases h
          · rename_i ds r2 _ heq
            simp only [Option.some.injEq, Prod.mk.injEq] at h
            rw [heq] at hd
            simp only [List.length_cons] at *
            rw [← h.2]
            omega
        · have hd := json.digits_length (sg :: r1)
          split at h
          · cases h
          · rename_i ds r2 _ heq
            simp only [Option.some.injEq, Prod.mk.injEq] at h
            rw [heq] at hd
            simp only [List.length_cons] at *
            rw [← h.2]
            omega
      · cases h
    · simp only [Option.some.injEq, Prod.mk.injEq] at h
      rw [← h.2]
  · simp only [Option.some.injEq, Prod.mk.injEq] at h
    rw [← h.2]

theorem json.scanFrac_length (acc cs t r : List Char)
    (h : json.scanFrac acc cs = some (t, r)) : r.length ≤ cs.length := by
  unfold json.scanFrac at h
  split at h
  · rename_i d r0
    split at h
    · have hd := json.digits_length r0
      split at h
      · cases h
      · rename_i ds r1 _ heq
        have he := json.scanExp_length _ _ _ _ h
        rw [heq] at hd
        simp only [List.length_cons] at *
        omega
    · exact json.scanExp_length _ _ _ _ h
  · simp only [Option.some.injEq, Prod.mk.injEq] at h
    rw [← h.2]

theorem json.scanInt_length (acc cs t r : List Char)
    (h : json.scanInt acc cs = some (t, r)) : r.length < cs.length := by
  unfold json.scanInt at h
  split at h
  · rename_i d r0
    split at h
    · have := json.scanFrac_length _ _ _ _ h
      simp only [List.length_cons]
      omega
    · split at h
      · have := json.scanFrac_length _ _ _ _ h
        have hd := json.digits_length r0
        simp only [List.length_cons]
        omega
      · cases h
  · cases h

theorem json.scanNumber_length (cs t r : List Char)
    (h : json.scanNumber cs = some (t, r)) : r.length < cs.length := by
  unfold json.scanNumber at h
  split at h
  · rename_i c r0
    split at h
    · have := json.scanInt_length _ _ _ _ h
      simp only [List.length_cons]
      omega
    · exact json.scanInt_length _ _ _ _ h
  · cases h

theorem json.expect_length : ∀ (w cs r : List Char),
    json.expect w cs = some r → r.length ≤ cs.length
  | [], cs, r, h => by
    simp only [json.expect, Option.some.injEq] at h
    rw [h]
  | _ :: _, [], r, h => by simp [json.expect] at h
  | w :: ws, c :: cs, r, h => by
    unfold json.expect at h
    split at h
    · exact Nat.le_succ_of_le (json.expect_length ws cs r h)
    · cases h

theorem json.scalar_length (c : Char) (rest : List Char) (v : Json) (r : List Char)
    (h : json.scalar c rest = some (v, r)) : r.length ≤ rest.length := by
  unfold json.scalar at h
  split at h
  · split at h
    · rename_i s r1 hs
      simp only [Option.some.injEq, Prod.mk.injEq] at h
      rw [← h.2]
      exact Nat.le_of_lt (json.scanString_length _ _ _ _ _ hs)
    · cases h
  · split at h
    · split at h
      · rename_i r1 hs
        simp only [Option.some.injEq, Prod.mk.injEq] at h
        rw [← h.2]
        exact json.expect_length _ _ _ hs
      · cases h
    · split at h
      · split at h
        · rename_i r1 hs
          simp only [Option.some.injEq, Prod.mk.injEq] at h
          rw [← h.2]
          exact json.expect_length _ _ _ hs
        · cases h
      · split at h
        · split at h
          · rename_i r1 hs
            simp only [Option.some.injEq, Prod.mk.injEq] at h
            rw [← h.2]
            exact json.expect_length _ _ _ hs
          · cases h
        · split at h
          · rename_i t r1 hs
            simp only [Option.some.injEq, Prod.mk.injEq] at h
            rw [← h.2]
            have := json.scanNumber_length _ _ _ hs
            simp only [List.length_cons] at this
            omega
          · cases h

theorem json.key_length (cs : List Char) (k : String) (r : List Char)
    (h : json.key cs = some (k, r)) : r.length < cs.length := by
  unfold json.key at h
  have h0 := json.skipSpace_length cs
  split at h
  · cases h
  · rename_i q r0 hs
    rw [hs] at h0
    split at h
    · split at h
      · cases h
      · rename_i key r1 hk
        have h1 := json.scanString_length _ _ _ _ _ hk
        have h2 := json.skipSpace_length r1
        split at h
        · cases h
        · rename_i colon r2 hs2
          rw [hs2] at h2
          split at h
          · simp only [Option.some.injEq, Prod.mk.injEq] at h
            rw [← h.2]
            simp only [List.length_cons] at *
            omega
          · cases h
    · cases h

theorem json.next_length (close : Nat) (cs : List Char) (b : Bool) (r : List Char)
    (h : json.next close cs = some (b, r)) : r.length < cs.length := by
  unfold json.next at h
  have h0 := json.skipSpace_length cs
  split at h
  · cases h
  · rename_i d r0 hs
    rw [hs] at h0
    simp only [List.length_cons] at h0
    split at h
    · simp only [Option.some.injEq, Prod.mk.injEq] at h
      rw [← h.2]
      omega
    · split at h
      · simp only [Option.some.injEq, Prod.mk.injEq] at h
        rw [← h.2]
        omega
      · cases h

theorem json.opened_length (close : Nat) (cs : List Char) (b : Bool) (r : List Char)
    (h : json.opened close cs = some (b, r)) : r.length ≤ cs.length := by
  unfold json.opened at h
  have h0 := json.skipSpace_length cs
  split at h
  · cases h
  · rename_i d r0 hs
    rw [hs] at h0
    simp only [List.length_cons] at h0
    split at h
    · simp only [Option.some.injEq, Prod.mk.injEq] at h
      rw [← h.2]
      omega
    · simp only [Option.some.injEq, Prod.mk.injEq] at h
      rw [← h.2]
      simp only [List.length_cons]
      omega

/-- One more unit of fuel does not change a result. -/
theorem json.fuel_succ : ∀ n : Nat,
    (∀ cs x, json.value n cs = some x → json.value (n + 1) cs = some x) ∧
    (∀ cs x, json.members n cs = some x → json.members (n + 1) cs = some x) ∧
    (∀ cs x, json.elements n cs = some x → json.elements (n + 1) cs = some x)
  | 0 => by
    refine ⟨fun cs x h => ?_, fun cs x h => ?_, fun cs x h => ?_⟩
    · simp [json.value] at h
    · simp [json.members] at h
    · simp [json.elements] at h
  | n + 1 => by
    obtain ⟨ihv, ihm, ihe⟩ := json.fuel_succ n
    refine ⟨fun cs x h => ?_, fun cs x h => ?_, fun cs x h => ?_⟩
    · rw [json.value] at h ⊢
      rcases hs : json.skipSpace cs with _ | ⟨c, rest⟩
      · simp [hs] at h
      · simp only [hs] at h ⊢
        by_cases h1 : (c.toNat == 123) = true
        · simp only [h1, if_true] at h ⊢
          rcases ho : json.opened 125 rest with _ | ⟨b, r⟩
          · simp [ho] at h
          · cases b
            · simp only [ho] at h ⊢
              rcases hm : json.members n r with _ | ⟨ms, r1⟩
              · simp [hm] at h
              · simp only [hm] at h
                simp only [ihm r _ hm]
                exact h
            · simp only [ho] at h ⊢
              exact h
        · simp only [h1, if_false] at h ⊢
          by_cases h2 : (c.toNat == 91) = true
          · simp only [h2, if_true] at h ⊢
            rcases ho : json.opened 93 rest with _ | ⟨b, r⟩
            · simp [ho] at h
            · cases b
              · simp only [ho] at h ⊢
                rcases hm : json.elements n r with _ | ⟨vs, r1⟩
                · simp [hm] at h
                · simp only [hm] at h
                  simp only [ihe r _ hm]
                  exact h
              · simp only [ho] at h ⊢
                exact h
          · simp only [h2, if_false] at h ⊢
            exact h
    · rw [json.members] at h ⊢
      rcases hk : json.key cs with _ | ⟨key, r⟩
      · simp [hk] at h
      · simp only [hk] at h ⊢
        rcases hv : json.value n r with _ | ⟨v, r1⟩
        · simp [hv] at h
        · simp only [hv] at h
          simp only [ihv r _ hv]
          rcases hn : json.next 125 r1 with _ | ⟨b, r2⟩
          · simp [hn] at h
          · cases b
            · simp only [hn] at h ⊢
              exact h
            · simp only [hn] at h ⊢
              rcases hm : json.members n r2 with _ | ⟨ms, r3⟩
              · simp [hm] at h
              · simp only [hm] at h
                simp only [ihm r2 _ hm]
                exact h
    · rw [json.elements] at h ⊢
      rcases hv : json.value n cs with _ | ⟨v, r⟩
      · simp [hv] at h
      · simp only [hv] at h
        simp only [ihv cs _ hv]
        rcases hn : json.next 93 r with _ | ⟨b, r1⟩
        · simp [hn] at h
        · cases b
          · simp only [hn] at h ⊢
            exact h
          · simp only [hn] at h ⊢
            rcases hm : json.elements n r1 with _ | ⟨vs, r2⟩
            · simp [hm] at h
            · simp only [hm] at h
              simp only [ihe r1 _ hm]
              exact h

/-- More fuel does not change a result. -/
theorem json.fuel_le (n m : Nat) (h : n ≤ m) :
    (∀ cs x, json.value n cs = some x → json.value m cs = some x) ∧
    (∀ cs x, json.members n cs = some x → json.members m cs = some x) ∧
    (∀ cs x, json.elements n cs = some x → json.elements m cs = some x) := by
  induction h with
  | refl => exact ⟨fun _ _ h => h, fun _ _ h => h, fun _ _ h => h⟩
  | step _ ih =>
    exact ⟨fun cs x h => (json.fuel_succ _).1 cs x (ih.1 cs x h),
      fun cs x h => (json.fuel_succ _).2.1 cs x (ih.2.1 cs x h),
      fun cs x h => (json.fuel_succ _).2.2 cs x (ih.2.2 cs x h)⟩

/-- A result is reached with as many units of fuel as it reads characters. -/
theorem json.fuel_used : ∀ m : Nat,
    (∀ cs v rest, json.value m cs = some (v, rest) →
      rest.length < cs.length ∧
      json.value (cs.length - rest.length) cs = some (v, rest)) ∧
    (∀ cs ms rest, json.members m cs = some (ms, rest) →
      rest.length < cs.length ∧
      json.members (cs.length - rest.length) cs = some (ms, rest)) ∧
    (∀ cs vs rest, json.elements m cs = some (vs, rest) →
      rest.length < cs.length ∧
      json.elements (cs.length - rest.length) cs = some (vs, rest))
  | 0 => by
    refine ⟨fun cs v rest h => ?_, fun cs ms rest h => ?_, fun cs vs rest h => ?_⟩
    · simp [json.value] at h
    · simp [json.members] at h
    · simp [json.elements] at h
  | m + 1 => by
    obtain ⟨ihv, ihm, ihe⟩ := json.fuel_used m
    refine ⟨fun cs v rest h => ?_, fun cs ms rest h => ?_, fun cs vs rest h => ?_⟩
    · rw [json.value] at h
      have hlen0 := json.skipSpace_length cs
      rcases hs : json.skipSpace cs with _ | ⟨c, rest0⟩
      · simp [hs] at h
      · rw [hs] at hlen0
        simp only [List.length_cons] at hlen0
        simp only [hs] at h
        by_cases h1 : (c.toNat == 123) = true
        · simp only [h1, if_true] at h
          rcases ho : json.opened 125 rest0 with _ | ⟨b, r⟩
          · simp [ho] at h
          · have hlen1 := json.opened_length _ _ _ _ ho
            cases b
            · simp only [ho] at h
              rcases hm : json.members m r with _ | ⟨ms, r1⟩
              · simp [hm] at h
              · simp only [hm, Option.some.injEq, Prod.mk.injEq] at h
                obtain ⟨hlen2, hfuel⟩ := ihm r ms r1 hm
                obtain ⟨hv, hr⟩ := h
                subst hv hr
                refine ⟨by omega, ?_⟩
                obtain ⟨K, hK⟩ : ∃ K, cs.length - r1.length = K + 1 :=
                  ⟨cs.length - r1.length - 1, by omega⟩
                rw [hK, json.value]
                simp only [hs, h1, if_true, ho]
                rw [(json.fuel_le (r.length - r1.length) K (by omega)).2.1 r _ hfuel]
            · simp only [ho, Option.some.injEq, Prod.mk.injEq] at h
              obtain ⟨hv, hr⟩ := h
              subst hv hr
              refine ⟨by omega, ?_⟩
              obtain ⟨K, hK⟩ : ∃ K, cs.length - r.length = K + 1 :=
                ⟨cs.length - r.length - 1, by omega⟩
              rw [hK, json.value]
              simp only [hs, h1, if_true, ho]
        · simp only [h1, Bool.false_eq_true, if_false] at h
          by_cases h2 : (c.toNat == 91) = true
          · simp only [h2, if_true] at h
            rcases ho : json.opened 93 rest0 with _ | ⟨b, r⟩
            · simp [ho] at h
            · have hlen1 := json.opened_length _ _ _ _ ho
              cases b
              · simp only [ho] at h
                rcases hm : json.elements m r with _ | ⟨vs, r1⟩
                · simp [hm] at h
                · simp only [hm, Option.some.injEq, Prod.mk.injEq] at h
                  obtain ⟨hlen2, hfuel⟩ := ihe r vs r1 hm
                  obtain ⟨hv, hr⟩ := h
                  subst hv hr
                  refine ⟨by omega, ?_⟩
                  obtain ⟨K, hK⟩ : ∃ K, cs.length - r1.length = K + 1 :=
                    ⟨cs.length - r1.length - 1, by omega⟩
                  rw [hK, json.value]
                  simp only [hs, h1, h2, Bool.false_eq_true, if_true, if_false, ho]
                  rw [(json.fuel_le (r.length - r1.length) K (by omega)).2.2 r _ hfuel]
              · simp only [ho, Option.some.injEq, Prod.mk.injEq] at h
                obtain ⟨hv, hr⟩ := h
                subst hv hr
                refine ⟨by omega, ?_⟩
                obtain ⟨K, hK⟩ : ∃ K, cs.length - r.length = K + 1 :=
                  ⟨cs.length - r.length - 1, by omega⟩
                rw [hK, json.value]
                simp only [hs, h1, h2, Bool.false_eq_true, if_true, if_false, ho]
          · simp only [h2, Bool.false_eq_true, if_false] at h
            have hlen1 := json.scalar_length _ _ _ _ h
            refine ⟨by omega, ?_⟩
            obtain ⟨K, hK⟩ : ∃ K, cs.length - rest.length = K + 1 :=
              ⟨cs.length - rest.length - 1, by omega⟩
            rw [hK, json.value]
            simp only [hs, h1, h2, Bool.false_eq_true, if_false]
            exact h
    · rw [json.members] at h
      rcases hk : json.key cs with _ | ⟨key, r⟩
      · simp [hk] at h
      · have hlen0 := json.key_length _ _ _ hk
        simp only [hk] at h
        rcases hv : json.value m r with _ | ⟨v, r1⟩
        · simp [hv] at h
        · obtain ⟨hlen1, hfuel1⟩ := ihv r v r1 hv
          simp only [hv] at h
          rcases hn : json.next 125 r1 with _ | ⟨b, r2⟩
          · simp [hn] at h
          · have hlen2 := json.next_length _ _ _ _ hn
            cases b
            · simp only [hn, Option.some.injEq, Prod.mk.injEq] at h
              obtain ⟨hms, hr⟩ := h
              subst hms hr
              refine ⟨by omega, ?_⟩
              obtain ⟨K, hK⟩ : ∃ K, cs.length - r2.length = K + 1 :=
                ⟨cs.length - r2.length - 1, by omega⟩
              rw [hK, json.members]
              simp only [hk]
              rw [(json.fuel_le (r.length - r1.length) K (by omega)).1 r _ hfuel1]
              simp only [hn]
            · simp only [hn] at h
              rcases hm : json.members m r2 with _ | ⟨ms1, r3⟩
              · simp [hm] at h
              · obtain ⟨hlen3, hfuel3⟩ := ihm r2 ms1 r3 hm
                simp only [hm, Option.some.injEq, Prod.mk.injEq] at h
                obtain ⟨hms, hr⟩ := h
                subst hms hr
                refine ⟨by omega, ?_⟩
                obtain ⟨K, hK⟩ : ∃ K, cs.length - r3.length = K + 1 :=
                  ⟨cs.length - r3.length - 1, by omega⟩
                rw [hK, json.members]
                simp only [hk]
                rw [(json.fuel_le (r.length - r1.length) K (by omega)).1 r _ hfuel1]
                simp only [hn]
                rw [(json.fuel_le (r2.length - r3.length) K (by omega)).2.1 r2 _ hfuel3]
    · rw [json.elements] at h
      rcases hv : json.value m cs with _ | ⟨v, r⟩
      · simp [hv] at h
      · obtain ⟨hlen1, hfuel1⟩ := ihv cs v r hv
        simp only [hv] at h
        rcases hn : json.next 93 r with _ | ⟨b, r1⟩
        · simp [hn] at h
        · have hlen2 := json.next_length _ _ _ _ hn
          cases b
          · simp only [hn, Option.some.injEq, Prod.mk.injEq] at h
            obtain ⟨hvs, hr⟩ := h
            subst hvs hr
            refine ⟨by omega, ?_⟩
            obtain ⟨K, hK⟩ : ∃ K, cs.length - r1.length = K + 1 :=
              ⟨cs.length - r1.length - 1, by omega⟩
            rw [hK, json.elements]
            rw [(json.fuel_le (cs.length - r.length) K (by omega)).1 cs _ hfuel1]
            simp only [hn]
          · simp only [hn] at h
            rcases hm : json.elements m r1 with _ | ⟨vs1, r2⟩
            · simp [hm] at h
            · obtain ⟨hlen3, hfuel3⟩ := ihe r1 vs1 r2 hm
              simp only [hm, Option.some.injEq, Prod.mk.injEq] at h
              obtain ⟨hvs, hr⟩ := h
              subst hvs hr
              refine ⟨by omega, ?_⟩
              obtain ⟨K, hK⟩ : ∃ K, cs.length - r2.length = K + 1 :=
                ⟨cs.length - r2.length - 1, by omega⟩
              rw [hK, json.elements]
              rw [(json.fuel_le (cs.length - r.length) K (by omega)).1 cs _ hfuel1]
              simp only [hn]
              rw [(json.fuel_le (r1.length - r2.length) K (by omega)).2.2 r1 _ hfuel3]

/-- The fuel of `json.first` is enough: no amount of fuel above it gives another result. -/
theorem json.first_fuel (body : String) (m : Nat) (h : body.length + 1 ≤ m) :
    json.value m body.data = json.first body := by
  unfold json.first
  rcases hv : json.value m body.data with _ | ⟨v, rest⟩
  · rcases hf : json.value (body.length + 1) body.data with _ | x
    · rfl
    · rw [(json.fuel_le _ m h).1 _ _ hf] at hv
      cases hv
  · obtain ⟨hlen, hfuel⟩ := (json.fuel_used m).1 _ v rest hv
    have hle : body.data.length - rest.length ≤ body.length + 1 := by
      have : body.length = body.data.length := rfl
      omega
    exact ((json.fuel_le _ _ hle).1 _ _ hfuel).symm

/-- A string is scanned with as many units of fuel as the input has
characters: fuel above that does not change the result. -/
theorem json.scanString_fuel : ∀ (n m : Nat) (cs acc : List Char),
    cs.length ≤ n → cs.length ≤ m → json.scanString n cs acc = json.scanString m cs acc
  | 0, 0, _, _, _, _ => rfl
  | 0, _ + 1, [], _, _, _ => rfl
  | _ + 1, 0, [], _, _, _ => rfl
  | _ + 1, _ + 1, [], _, _, _ => rfl
  | 0, _, _ :: _, _, h, _ => absurd h (by simp)
  | _ + 1, 0, _ :: _, _, _, h => absurd h (by simp)
  | n + 1, m + 1, c :: cs, acc, hn, hm => by
    have ih : ∀ cs1 acc1, cs1.length ≤ cs.length →
        json.scanString n cs1 acc1 = json.scanString m cs1 acc1 := fun cs1 acc1 h1 =>
      json.scanString_fuel n m cs1 acc1
        (by simp only [List.length_cons] at hn; omega)
        (by simp only [List.length_cons] at hm; omega)
    unfold json.scanString
    by_cases hq : (c.toNat == 34) = true
    · simp only [hq, if_true]
    · simp only [hq, Bool.false_eq_true, if_false]
      by_cases hb : (c.toNat == 92) = true
      · simp only [hb, if_true]
        rcases cs with _ | ⟨e, cs1⟩
        · rfl
        · simp only
          by_cases hu : (e.toNat == 117) = true
          · simp only [hu, if_true]
            rcases hg : json.getu4 cs1 with _ | ⟨rr, cs2⟩
            · rfl
            · have hlen := json.getu4_length _ _ _ hg
              simp only
              have ih2 : ∀ acc1, json.scanString n cs2 acc1 = json.scanString m cs2 acc1 :=
                fun acc1 => ih cs2 acc1 (by simp only [List.length_cons]; omega)
              by_cases hsur : (decide (55296 ≤ rr) && decide (rr < 57344)) = true
              · simp only [hsur, if_true]
                rcases cs2 with _ | ⟨b, _ | ⟨u, cs3⟩⟩
                · exact ih2 _
                · exact ih2 _
                · simp only
                  by_cases hbu : (b.toNat == 92 && u.toNat == 117) = true
                  · simp only [hbu, if_true]
                    rcases hg1 : json.getu4 cs3 with _ | ⟨rr1, cs4⟩
                    · exact ih2 _
                    · have hlen1 := json.getu4_length _ _ _ hg1
                      simp only
                      by_cases hpair :
                          (decide (rr < 56320) && decide (56320 ≤ rr1) &&
                            decide (rr1 < 57344)) = true
                      · simp only [hpair, if_true]
                        exact ih cs4 _ (by simp only [List.length_cons] at *; omega)
                      · simp only [hpair, Bool.false_eq_true, if_false]
                        exact ih2 _
                  · simp only [hbu, Bool.false_eq_true, if_false]
                    exact ih2 _
              · simp only [hsur, Bool.false_eq_true, if_false]
                exact ih2 _
          · simp only [hu, Bool.false_eq_true, if_false]
            rcases json.escape e with _ | x
            · rfl
            · exact ih cs1 _ (by simp only [List.length_cons]; omega)
      · simp only [hb, Bool.false_eq_true, if_false]
        by_cases hc : c.toNat < 32
        · simp only [hc, if_true]
        · simp only [hc, if_false]
          exact ih cs _ (Nat.le_refl _)

/-! ## The decoder -/

section decoder

variable {Info ReadConfig : Type}

/-- The decoder reads the body of a request and nothing else. -/
theorem sdk.DecodeRequest_body {α : Type}
    (fields : List (String × Json) → α → Option α) (r1 r2 : Request) (req0 : α)
    (h : r1.Body = r2.Body) :
    sdk.DecodeRequest fields r1 req0 = sdk.DecodeRequest fields r2 req0 := by
  unfold sdk.DecodeRequest
  rw [h]

/-- A body that does not start with a JSON value fails to decode. -/
theorem sdk.DecodeRequest_no_value {α : Type}
    (fields : List (String × Json) → α → Option α) (r : Request) (req0 : α)
    (h : json.first r.Body = none) :
    ∃ e, sdk.DecodeRequest fields r req0 = Except.error e := by
  unfold sdk.DecodeRequest
  rw [h]
  exact ⟨_, rfl⟩

/-- A body whose first value is neither `null` nor an object fails to
decode. -/
theorem sdk.DecodeRequest_no_struct {α : Type}
    (fields : List (String × Json) → α → Option α) (r : Request) (req0 : α)
    (v : Json) (rest : List Char) (h : json.first r.Body = some (v, rest))
    (hnull : v ≠ Json.null) (hobj : ∀ members, v ≠ Json.obj members) :
    ∃ e, sdk.DecodeRequest fields r req0 = Except.error e := by
  unfold sdk.DecodeRequest
  rw [h]
  cases v with
  | null => exact absurd rfl hnull
  | obj members => exact absurd rfl (hobj members)
  | bool b => exact ⟨_, rfl⟩
  | number t => exact ⟨_, rfl⟩
  | str t => exact ⟨_, rfl⟩
  | arr items => exact ⟨_, rfl⟩

/-- An object with a member that does not fit its field fails to decode. -/
theorem sdk.DecodeRequest_no_fit {α : Type}
    (fields : List (String × Json) → α → Option α) (r : Request) (req0 : α)
    (members : List (String × Json)) (rest : List Char)
    (h : json.first r.Body = some (Json.obj members, rest))
    (hf : fields members req0 = none) :
    ∃ e, sdk.DecodeRequest fields r req0 = Except.error e := by
  unfold sdk.DecodeRequest
  rw [h]
  simp only [hf]
  exact ⟨_, rfl⟩

/-- What the decoder returns for an object is what storing its members
gives. -/
theorem sdk.DecodeRequest_ok_fields {α : Type}
    (fields : List (String × Json) → α → Option α) (r : Request) (req0 req : α)
    (members : List (String × Json)) (rest : List Char)
    (hp : json.first r.Body = some (Json.obj members, rest))
    (h : sdk.DecodeRequest fields r req0 = Except.ok req) :
    fields members req0 = some req := by
  unfold sdk.DecodeRequest at h
  rw [hp] at h
  rcases hf : fields members req0 with _ | q
  · simp [hf] at h
  · simp only [hf, Except.ok.injEq] at h
    rw [h]

/-- A value that is neither a string nor `null` does not fit a string. -/
theorem json.storeString_wrong (v : Json) (cur : String)
    (hnull : v ≠ Json.null) (hstr : ∀ t, v ≠ Json.str t) :
    json.storeString v cur = none := by
  cases v with
  | null => exact absurd rfl hnull
  | str t => exact absurd rfl (hstr t)
  | bool b => rfl
  | number t => rfl
  | arr items => rfl
  | obj ms => rfl

/-- A value other than `null` that the schema refuses does not fit. -/
theorem json.store_wrong {α : Type} (decode : Json → α → Option α) (v : Json) (cur : α)
    (hnull : v ≠ Json.null) (hd : decode v cur = none) :
    json.store decode v cur = none := by
  cases v with
  | null => exact absurd rfl hnull
  | str t => exact hd
  | bool b => exact hd
  | number t => exact hd
  | arr items => exact hd
  | obj ms => exact hd

/-- A `File` that is neither a string nor `null` does not fit. -/
theorem sdk.startLoggingFields_wrong_File (c : Codec Info ReadConfig)
    (key : String) (v : Json) (hk : json.matches key "File" = true)
    (hnull : v ≠ Json.null) (hstr : ∀ t, v ≠ Json.str t) :
    ∀ (members : List (String × Json)) (req0 : StartLoggingRequest Info),
      (key, v) ∈ members → sdk.startLoggingFields c members req0 = none
  | [], _, hm => by cases hm
  | (k0, v0) :: rest, req0, hm => by
    rcases List.mem_cons.mp hm with heq | hrest
    · cases heq
      simp only [sdk.startLoggingFields, hk, if_true,
        json.storeString_wrong v req0.File hnull hstr]
    · have ih := fun q => sdk.startLoggingFields_wrong_File c key v hk hnull hstr rest q hrest
      simp only [sdk.startLoggingFields]
      split
      · split
        · exact ih _
        · rfl
      · split
        · split
          · exact ih _
          · rfl
        · exact ih _

/-- A `File` that is neither a string nor `null` does not fit. -/
theorem sdk.stopLoggingFields_wrong_File
    (key : String) (v : Json) (hk : json.matches key "File" = true)
    (hnull : v ≠ Json.null) (hstr : ∀ t, v ≠ Json.str t) :
    ∀ (members : List (String × Json)) (req0 : StopLoggingRequest),
      (key, v) ∈ members → sdk.stopLoggingFields members req0 = none
  | [], _, hm => by cases hm
  | (k0, v0) :: rest, req0, hm => by
    rcases List.mem_cons.mp hm with heq | hrest
    · cases heq
      simp only [sdk.stopLoggingFields, hk, if_true,
        json.storeString_wrong v req0.File hnull hstr]
    · have ih := fun q => sdk.stopLoggingFields_wrong_File key v hk hnull hstr rest q hrest
      simp only [sdk.stopLoggingFields]
      split
      · split
        · exact ih _
        · rfl
      · exact ih _

/-- A member named `Info` is not named `File`. -/
theorem json.matches_Info_not_File (key : String) (h : json.matches key "Info" = true) :
    json.matches key "File" = false := by
  unfold json.matches at h ⊢
  have hk : json.fold key = json.fold "Info" := by simpa using h
  rw [hk]
  rfl

/-- A member named `Info` is not named `ReadConfig`. -/
theorem json.matches_Info_not_ReadConfig (key : String)
    (h : json.matches key "Info" = true) : json.matches key "ReadConfig" = false := by
  unfold json.matches at h ⊢
  have hk : json.fold key = json.fold "Info" := by simpa using h
  rw [hk]
  rfl

/-- An `Info` that the schema of `logger.Info` refuses does not fit. -/
theorem sdk.startLoggingFields_wrong_Info (c : Codec Info ReadConfig)
    (key : String) (v : Json) (hk : json.matches key "Info" = true)
    (hnull : v ≠ Json.null) (hd : ∀ cur, c.decodeInfo v cur = none) :
    ∀ (members : List (String × Json)) (req0 : StartLoggingRequest Info),
      (key, v) ∈ members → sdk.startLoggingFields c members req0 = none
  | [], _, hm => by cases hm
  | (k0, v0) :: rest, req0, hm => by
    rcases List.mem_cons.mp hm with heq | hrest
    · cases heq
      simp only [sdk.startLoggingFields, hk, json.matches_Info_not_File key hk, if_true,
        Bool.false_eq_true, if_false,
        json.store_wrong c.decodeInfo v req0.Info hnull (hd req0.Info)]
    · have ih := fun q => sdk.startLoggingFields_wrong_Info c key v hk hnull hd rest q hrest
      simp only [sdk.startLoggingFields]
      split
      · split
        · exact ih _
        · rfl
      · split
        · split
          · exact ih _
          · rfl
        · exact ih _

/-- A `ReadConfig` that the schema of `logger.ReadConfig` refuses does not
fit. -/
theorem sdk.readLogsFields_wrong_ReadConfig (c : Codec Info ReadConfig)
    (key : String) (v : Json) (hk : json.matches key "ReadConfig" = true)
    (hnull : v ≠ Json.null) (hd : ∀ cur, c.decodeReadConfig v cur = none) :
    ∀ (members : List (String × Json)) (req0 : ReadLogsRequest ReadConfig Info),
      (key, v) ∈ members → sdk.readLogsFields c members req0 = none
  | [], _, hm => by cases hm
  | (k0, v0) :: rest, req0, hm => by
    rcases List.mem_cons.mp hm with heq | hrest
    · cases heq
      simp only [sdk.readLogsFields, hk, if_true,
        json.store_wrong c.decodeReadConfig v req0.ReadConfig hnull (hd req0.ReadConfig)]
    · have ih := fun q => sdk.readLogsFields_wrong_ReadConfig c key v hk hnull hd rest q hrest
      simp only [sdk.readLogsFields]
      split
      · split
        · exact ih _
        · rfl
      · split
        · split
          · exact ih _
          · rfl
        · exact ih _

/-- An `Info` that the schema of `logger.Info` refuses does not fit. -/
theorem sdk.readLogsFields_wrong_Info (c : Codec Info ReadConfig)
    (key : String) (v : Json) (hk : json.matches key "Info" = true)
    (hnull : v ≠ Json.null) (hd : ∀ cur, c.decodeInfo v cur = none) :
    ∀ (members : List (String × Json)) (req0 : ReadLogsRequest ReadConfig Info),
      (key, v) ∈ members → sdk.readLogsFields c members req0 = none
  | [], _, hm => by cases hm
  | (k0, v0) :: rest, req0, hm => by
    rcases List.mem_cons.mp hm with heq | hrest
    · cases heq
      simp only [sdk.readLogsFields, hk, json.matches_Info_not_ReadConfig key hk, if_true,
        Bool.false_eq_true, if_false,
        json.store_wrong c.decodeInfo v req0.Info hnull (hd req0.Info)]
    · have ih := fun q => sdk.readLogsFields_wrong_Info c key v hk hnull hd rest q hrest
      simp only [sdk.readLogsFields]
      split
      · split
        · exact ih _
        · rfl
      · split
        · split
          · exact ih _
          · rfl
        · exact ih _

/-- Members named after no field of `StartLoggingRequest` are skipped. -/
theorem sdk.startLoggingFields_skip (c : Codec Info ReadConfig) :
    ∀ (members : List (String × Json)) (req0 : StartLoggingRequest Info),
      sdk.startLoggingFields c members req0 =
        sdk.startLoggingFields c
          (members.filter (fun m => json.matches m.1 "File" || json.matches m.1 "Info")) req0
  | [], _ => rfl
  | (k0, v0) :: rest, req0 => by
    have ih := fun q => sdk.startLoggingFields_skip c rest q
    by_cases hf : json.matches k0 "File" = true
    · simp only [List.filter, hf, Bool.true_or, sdk.startLoggingFields, if_true]
      cases json.storeString v0 req0.File with
      | none => rfl
      | some f => exact ih _
    · by_cases hi : json.matches k0 "Info" = true
      · simp only [List.filter, hi, Bool.or_true, sdk.startLoggingFields, hf, if_true, if_false]
        cases json.store c.decodeInfo v0 req0.Info with
        | none => rfl
        | some i => exact ih _
      · have hf0 : json.matches k0 "File" = false := by simpa using hf
        have hi0 : json.matches k0 "Info" = false := by simpa using hi
        simp only [List.filter, hf0, hi0, Bool.or_false, sdk.startLoggingFields,
          Bool.false_eq_true, if_false]
        exact ih _

/-- Members named after no field of `StopLoggingRequest` are skipped. -/
theorem sdk.stopLoggingFields_skip :
    ∀ (members : List (String × Json)) (req0 : StopLoggingRequest),
      sdk.stopLoggingFields members req0 =
        sdk.stopLoggingFields (members.filter (fun m => json.matches m.1 "File")) req0
  | [], _ => rfl
  | (k0, v0) :: rest, req0 => by
    have ih := fun q => sdk.stopLoggingFields_skip rest q
    by_cases hf : json.matches k0 "File" = true
    · simp only [List.filter, hf, sdk.stopLoggingFields, if_true]
      cases json.storeString v0 req0.File with
      | none => rfl
      | some f => exact ih _
    · have hf0 : json.matches k0 "File" = false := by simpa using hf
      simp only [List.filter, hf0, sdk.stopLoggingFields, Bool.false_eq_true, if_false]
      exact ih _

/-- Members named after no field of `ReadLogsRequest` are skipped. -/
theorem sdk.readLogsFields_skip (c : Codec Info ReadConfig) :
    ∀ (members : List (String × Json)) (req0 : ReadLogsRequest ReadConfig Info),
      sdk.readLogsFields c members req0 =
        sdk.readLogsFields c
          (members.filter
            (fun m => json.matches m.1 "ReadConfig" || json.matches m.1 "Info")) req0
  | [], _ => rfl
  | (k0, v0) :: rest, req0 => by
    have ih := fun q => sdk.readLogsFields_skip c rest q
    by_cases hf : json.matches k0 "ReadConfig" = true
    · simp only [List.filter, hf, Bool.true_or, sdk.readLogsFields, if_true]
      cases json.store c.decodeReadConfig v0 req0.ReadConfig with
      | none => rfl
      | some rc => exact ih _
    · by_cases hi : json.matches k0 "Info" = true
      · simp only [List.filter, hi, Bool.or_true, sdk.readLogsFields, hf, if_true, if_false]
        cases json.store c.decodeInfo v0 req0.Info with
        | none => rfl
        | some i => exact ih _
      · have hf0 : json.matches k0 "ReadConfig" = false := by simpa using hf
        have hi0 : json.matches k0 "Info" = false := by simpa using hi
        simp only [List.filter, hf0, hi0, Bool.or_false, sdk.readLogsFields,
          Bool.false_eq_true, if_false]
        exact ih _

/-- A field `File` with no member in the body keeps its value. -/
theorem sdk.startLoggingFields_File (c : Codec Info ReadConfig) :
    ∀ (members : List (String × Json)) (req0 req : StartLoggingRequest Info),
      sdk.startLoggingFields c members req0 = some req →
      (∀ m ∈ members, json.matches m.1 "File" = false) → req.File = req0.File
  | [], req0, req, h, _ => by
    simp only [sdk.startLoggingFields, Option.some.injEq] at h
    rw [h]
  | (k0, v0) :: rest, req0, req, h, hn => by
    have hk : json.matches k0 "File" = false := hn (k0, v0) (List.mem_cons_self _ _)
    have hrest : ∀ m ∈ rest, json.matches m.1 "File" = false :=
      fun m hm => hn m (List.mem_cons_of_mem _ hm)
    simp only [sdk.startLoggingFields, hk, Bool.false_eq_true, if_false] at h
    by_cases hi : json.matches k0 "Info" = true
    · rcases hs : json.store c.decodeInfo v0 req0.Info with _ | i
      · simp [hi, hs] at h
      · simp only [hi, hs, if_true] at h
        exact sdk.startLoggingFields_File c rest (StartLoggingRequest.mk req0.File i) req h
          hrest
    · simp only [hi, if_false] at h
      exact sdk.startLoggingFields_File c rest req0 req h hrest

/-- A field `Info` with no member in the body keeps its value. -/
theorem sdk.startLoggingFields_Info (c : Codec Info ReadConfig) :
    ∀ (members : List (String × Json)) (req0 req : StartLoggingRequest Info),
      sdk.startLoggingFields c members req0 = some req →
      (∀ m ∈ members, json.matches m.1 "Info" = false) → req.Info = req0.Info
  | [], req0, req, h, _ => by
    simp only [sdk.startLoggingFields, Option.some.injEq] at h
    rw [h]
  | (k0, v0) :: rest, req0, req, h, hn => by
    have hk : json.matches k0 "Info" = false := hn (k0, v0) (List.mem_cons_self _ _)
    have hrest : ∀ m ∈ rest, json.matches m.1 "Info" = false :=
      fun m hm => hn m (List.mem_cons_of_mem _ hm)
    simp only [sdk.startLoggingFields, hk, Bool.false_eq_true, if_false] at h
    by_cases hf : json.matches k0 "File" = true
    · rcases hs : json.storeString v0 req0.File with _ | f
      · simp [hf, hs] at h
      · simp only [hf, hs, if_true] at h
        exact sdk.startLoggingFields_Info c rest (StartLoggingRequest.mk f req0.Info) req h
          hrest
    · simp only [hf, if_false] at h
      exact sdk.startLoggingFields_Info c rest req0 req h hrest

/-- A field `File` with no member in the body keeps its value. -/
theorem sdk.stopLoggingFields_File :
    ∀ (members : List (String × Json)) (req0 req : StopLoggingRequest),
      sdk.stopLoggingFields members req0 = some req →
      (∀ m ∈ members, json.matches m.1 "File" = false) → req.File = req0.File
  | [], req0, req, h, _ => by
    simp only [sdk.stopLoggingFields, Option.some.injEq] at h
    rw [h]
  | (k0, v0) :: rest, req0, req, h, hn => by
    have hk : json.matches k0 "File" = false := hn (k0, v0) (List.mem_cons_self _ _)
    have hrest : ∀ m ∈ rest, json.matches m.1 "File" = false :=
      fun m hm => hn m (List.mem_cons_of_mem _ hm)
    simp only [sdk.stopLoggingFields, hk, Bool.false_eq_true, if_false] at h
    exact sdk.stopLoggingFields_File rest req0 req h hrest

/-- A field `ReadConfig` with no member in the body keeps its value. -/
theorem sdk.readLogsFields_ReadConfig (c : Codec Info ReadConfig) :
    ∀ (members : List (String × Json)) (req0 req : ReadLogsRequest ReadConfig Info),
      sdk.readLogsFields c members req0 = some req →
      (∀ m ∈ members, json.matches m.1 "ReadConfig" = false) →
      req.ReadConfig = req0.ReadConfig
  | [], req0, req, h, _ => by
    simp only [sdk.readLogsFields, Option.some.injEq] at h
    rw [h]
  | (k0, v0) :: rest, req0, req, h, hn => by
    have hk : json.matches k0 "ReadConfig" = false := hn (k0, v0) (List.mem_cons_self _ _)
    have hrest : ∀ m ∈ rest, json.matches m.1 "ReadConfig" = false :=
      fun m hm => hn m (List.mem_cons_of_mem _ hm)
    simp only [sdk.readLogsFields, hk, Bool.false_eq_true, if_false] at h
    by_cases hi : json.matches k0 "Info" = true
    · rcases hs : json.store c.decodeInfo v0 req0.Info with _ | i
      · simp [hi, hs] at h
      · simp only [hi, hs, if_true] at h
        exact sdk.readLogsFields_ReadConfig c rest (ReadLogsRequest.mk req0.ReadConfig i) req h
          hrest
    · simp only [hi, if_false] at h
      exact sdk.readLogsFields_ReadConfig c rest req0 req h hrest

/-- A field `Info` with no member in the body keeps its value. -/
theorem sdk.readLogsFields_Info (c : Codec Info ReadConfig) :
    ∀ (members : List (String × Json)) (req0 req : ReadLogsRequest ReadConfig Info),
      sdk.readLogsFields c members req0 = some req →
      (∀ m ∈ members, json.matches m.1 "Info" = false) → req.Info = req0.Info
  | [], req0, req, h, _ => by
    simp only [sdk.readLogsFields, Option.some.injEq] at h
    rw [h]
  | (k0, v0) :: rest, req0, req, h, hn => by
    have hk : json.matches k0 "Info" = false := hn (k0, v0) (List.mem_cons_self _ _)
    have hrest : ∀ m ∈ rest, json.matches m.1 "Info" = false :=
      fun m hm => hn m (List.mem_cons_of_mem _ hm)
    simp only [sdk.readLogsFields, hk, Bool.false_eq_true, if_false] at h
    by_cases hf : json.matches k0 "ReadConfig" = true
    · rcases hs : json.store c.decodeReadConfig v0 req0.ReadConfig with _ | rc
      · simp [hf, hs] at h
      · simp only [hf, hs, if_true] at h
        exact sdk.readLogsFields_Info c rest (ReadLogsRequest.mk rc req0.Info) req h hrest
    · simp only [hf, if_false] at h
      exact sdk.readLogsFields_Info c rest req0 req h hrest

end decoder

/-! ## Refusing a request -/

section refusing

variable {σ Info ReadConfig ρ : Type}

/-- A request that fails to decode is refused by the start-logging closure. -/
theorem refusedByStartLogging_of_error [Inhabited Info] (c : Codec Info ReadConfig)
    (driver : Driver σ Info ReadConfig ρ) (s : σ) (r : Request)
    (h : ∃ e, sdk.DecodeRequest (sdk.startLoggingFields c) r StartLoggingRequest.zero =
      Except.error e) :
    RefusedByStartLogging c driver s r := by
  obtain ⟨e, he⟩ := h
  refine ⟨⟨e, he⟩, ?_⟩
  rw [startLoggingHandler_decode_error (sdk.decoder c) driver s r e he]
  rfl

/-- A request that fails to decode is refused by the stop-logging closure. -/
theorem refusedByStopLogging_of_error (c : Codec Info ReadConfig)
    (driver : Driver σ Info ReadConfig ρ) (s : σ) (r : Request)
    (h : ∃ e, sdk.DecodeRequest sdk.stopLoggingFields r StopLoggingRequest.zero =
      Except.error e) :
    RefusedByStopLogging c driver s r := by
  obtain ⟨e, he⟩ := h
  refine ⟨⟨e, he⟩, ?_⟩
  rw [stopLoggingHandler_decode_error (sdk.decoder c) driver s r e he]
  rfl

/-- A request that fails to decode is refused by the read-logs closure. -/
theorem refusedByReadLogs_of_error [Inhabited ReadConfig] [Inhabited Info]
    (c : Codec Info ReadConfig)
    (driver : Driver σ Info ReadConfig ρ) (s : σ) (r : Request)
    (h : ∃ e, sdk.DecodeRequest (sdk.readLogsFields c) r ReadLogsRequest.zero =
      Except.error e) :
    RefusedByReadLogs c driver s r := by
  obtain ⟨e, he⟩ := h
  refine ⟨⟨e, he⟩, ?_⟩
  rw [readLogsHandler_decode_error (sdk.decoder c) driver s r e he]
  rfl

end refusing

/-! ## Decode failures -/

section claims

variable {σ Info ReadConfig ρ : Type}

/-- C1: in each of the three request-carrying handlers, a request whose
decoding returns a non-nil error makes the handler return at once: no method
of the driver is invoked (the driver is left in the state it was in) and
`sdk.EncodeResponse` is not called. -/
theorem decode_failure_short_circuits [Inhabited Info] [Inhabited ReadConfig]
    (dec : SDK Info ReadConfig) (driver : Driver σ Info ReadConfig ρ) (s : σ) (r : Request) :
    (∀ e, dec.DecodeStartLoggingRequest r StartLoggingRequest.zero = Except.error e →
      methodsCalled (startLoggingHandler dec driver s r).calls = [] ∧
      encoded (startLoggingHandler dec driver s r).calls = [] ∧
      (startLoggingHandler dec driver s r).driver = s) ∧
    (∀ e, dec.DecodeStopLoggingRequest r StopLoggingRequest.zero = Except.error e →
      methodsCalled (stopLoggingHandler dec driver s r).calls = [] ∧
      encoded (stopLoggingHandler dec driver s r).calls = [] ∧
      (stopLoggingHandler dec driver s r).driver = s) ∧
    (∀ e, dec.DecodeReadLogsRequest r ReadLogsRequest.zero = Except.error e →
      methodsCalled (readLogsHandler dec driver s r).calls = [] ∧
      encoded (readLogsHandler dec driver s r).calls = [] ∧
      (readLogsHandler dec driver s r).driver = s) := by
  refine ⟨fun e h => ?_, fun e h => ?_, fun e h => ?_⟩
  · rw [startLoggingHandler_decode_error dec driver s r e h]
    exact ⟨rfl, rfl, rfl⟩
  · rw [stopLoggingHandler_decode_error dec driver s r e h]
    exact ⟨rfl, rfl, rfl⟩
  · rw [readLogsHandler_decode_error dec driver s r e h]
    exact ⟨rfl, rfl, rfl⟩

/-- C1 at concrete requests: a body that is not JSON sent to start-logging,
a body whose `File` is a number sent to stop-logging, a body that is an array
sent to read-logs; the driver is logging one file. -/
theorem decode_failure_short_circuits_witness :
    ((∃ e, (sdk.decoder demoCodec).DecodeStartLoggingRequest
        (demoRequest startLoggingPath bodyNotJson) StartLoggingRequest.zero =
        Except.error e) ∧
      methodsCalled (startLoggingHandler (sdk.decoder demoCodec) demoDriver ["/run/fifo"]
        (demoRequest startLoggingPath bodyNotJson)).calls = [] ∧
      encoded (startLoggingHandler (sdk.decoder demoCodec) demoDriver ["/run/fifo"]
        (demoRequest startLoggingPath bodyNotJson)).calls = [] ∧
      (startLoggingHandler (sdk.decoder demoCodec) demoDriver ["/run/fifo"]
        (demoRequest startLoggingPath bodyNotJson)).driver = ["/run/fifo"]) ∧
    ((∃ e, (sdk.decoder demoCodec).DecodeStopLoggingRequest
        (demoRequest stopLoggingPath bodyWrongType) StopLoggingRequest.zero =
        Except.error e) ∧
      methodsCalled (stopLoggingHandler (sdk.decoder demoCodec) demoDriver ["/run/fifo"]
        (demoRequest stopLoggingPath bodyWrongType)).calls = [] ∧
      encoded (stopLoggingHandler (sdk.decoder demoCodec) demoDriver ["/run/fifo"]
        (demoRequest stopLoggingPath bodyWrongType)).calls = [] ∧
      (stopLoggingHandler (sdk.decoder demoCodec) demoDriver ["/run/fifo"]
        (demoRequest stopLoggingPath bodyWrongType)).driver = ["/run/fifo"]) ∧
    ((∃ e, (sdk.decoder demoCodec).DecodeReadLogsRequest
        (demoRequest readLogsPath bodyArray) ReadLogsRequest.zero =
        Except.error e) ∧
      methodsCalled (readLogsHandler (sdk.decoder demoCodec) demoDriver ["/run/fifo"]
        (demoRequest readLogsPath bodyArray)).calls = [] ∧
      encoded (readLogsHandler (sdk.decoder demoCodec) demoDriver ["/run/fifo"]
        (demoRequest readLogsPath bodyArray)).calls = [] ∧
      (readLogsHandler (sdk.decoder demoCodec) demoDriver ["/run/fifo"]
        (demoRequest readLogsPath bodyArray)).driver = ["/run/fifo"]) :=
  ⟨⟨⟨_, rfl⟩, (decode_failure_short_circuits (sdk.decoder demoCodec) demoDriver ["/run/fifo"]
      (demoRequest startLoggingPath bodyNotJson)).1 _ rfl⟩,
   ⟨⟨_, rfl⟩, (decode_failure_short_circuits (sdk.decoder demoCodec) demoDriver ["/run/fifo"]
      (demoRequest stopLoggingPath bodyWrongType)).2.1 _ rfl⟩,
   ⟨⟨_, rfl⟩, (decode_failure_short_circuits (sdk.decoder demoCodec) demoDriver ["/run/fifo"]
      (demoRequest readLogsPath bodyArray)).2.2 _ rfl⟩⟩

/-! ## Driver errors -/

/-- C2: in each of the three request-carrying handlers, when the request
decodes and the driver method returns a non-nil error `e`, exactly one response
is encoded and its payload is the `ErrorResponse` whose `Err` is `e.Error()`;
`NewErrorResponse msg` has `Err = msg`, and on the wire it is the object with
the single member `Err`. -/
theorem driver_error_payload [Inhabited Info] [Inhabited ReadConfig]
    (dec : SDK Info ReadConfig) (driver : Driver σ Info ReadConfig ρ) (s : σ) (r : Request) :
    (∀ req e, dec.DecodeStartLoggingRequest r StartLoggingRequest.zero = Except.ok req →
      (driver.StartLogging s req).2 = some e →
      encoded (startLoggingHandler dec driver s r).calls =
        [(Payload.error (ErrorResponse.mk e.Error), true)]) ∧
    (∀ req e, dec.DecodeStopLoggingRequest r StopLoggingRequest.zero = Except.ok req →
      (driver.StopLogging s req).2 = some e →
      encoded (stopLoggingHandler dec driver s r).calls =
        [(Payload.error (ErrorResponse.mk e.Error), true)]) ∧
    (∀ req e, dec.DecodeReadLogsRequest r ReadLogsRequest.zero = Except.ok req →
      (driver.ReadLogs s req).2.2 = some e →
      encoded (readLogsHandler dec driver s r).calls =
        [(Payload.error (ErrorResponse.mk e.Error), true)]) ∧
    (∀ msg, (NewErrorResponse msg).Err = msg) ∧
    (∀ msg, (NewErrorResponse msg).wire = Json.obj [("Err", Json.str msg)]) := by
  refine ⟨fun req e h hd => ?_, fun req e h hd => ?_, fun req e h hd => ?_,
    fun _ => rfl, fun _ => rfl⟩
  · rw [startLoggingHandler_driver_error dec driver s r req e h hd]
    rfl
  · rw [stopLoggingHandler_driver_error dec driver s r req e h hd]
    rfl
  · rw [readLogsHandler_driver_error dec driver s r req e h hd]
    rfl

/-- C2 at concrete requests: the body `{}` decodes to the zero-valued request
at each of the three endpoints, and the driver refuses each of them. -/
theorem driver_error_payload_witness :
    ((sdk.decoder demoCodec).DecodeStartLoggingRequest
        (demoRequest startLoggingPath bodyEmptyObject) StartLoggingRequest.zero =
        Except.ok (StartLoggingRequest.mk "" "") ∧
      (demoDriver.StartLogging [] (StartLoggingRequest.mk "" "")).2 =
        some (GoError.mk "file is required") ∧
      encoded (startLoggingHandler (sdk.decoder demoCodec) demoDriver []
        (demoRequest startLoggingPath bodyEmptyObject)).calls =
        [(Payload.error (ErrorResponse.mk "file is required"), true)]) ∧
    ((sdk.decoder demoCodec).DecodeStopLoggingRequest
        (demoRequest stopLoggingPath bodyFile) StopLoggingRequest.zero =
        Except.ok (StopLoggingRequest.mk "/run/fifo") ∧
      (demoDriver.StopLogging [] (StopLoggingRequest.mk "/run/fifo")).2 =
        some (GoError.mk "logger not found") ∧
      encoded (stopLoggingHandler (sdk.decoder demoCodec) demoDriver []
        (demoRequest stopLoggingPath bodyFile)).calls =
        [(Payload.error (ErrorResponse.mk "logger not found"), true)]) ∧
    ((sdk.decoder demoCodec).DecodeReadLogsRequest
        (demoRequest readLogsPath bodyEmptyObject) ReadLogsRequest.zero =
        Except.ok (ReadLogsRequest.mk false "") ∧
      (demoDriver.ReadLogs [] (ReadLogsRequest.mk false "")).2.2 =
        some (GoError.mk "container id is required") ∧
      encoded (readLogsHandler (sdk.decoder demoCodec) demoDriver []
        (demoRequest readLogsPath bodyEmptyObject)).calls =
        [(Payload.error (ErrorResponse.mk "container id is required"), true)]) :=
  ⟨⟨rfl, rfl, (driver_error_payload (sdk.decoder demoCodec) demoDriver []
      (demoRequest startLoggingPath bodyEmptyObject)).1 _ _ rfl rfl⟩,
   ⟨rfl, rfl, (driver_error_payload (sdk.decoder demoCodec) demoDriver []
      (demoRequest stopLoggingPath bodyFile)).2.1 _ _ rfl rfl⟩,
   ⟨rfl, rfl, (driver_error_payload (sdk.decoder demoCodec) demoDriver []
      (demoRequest readLogsPath bodyEmptyObject)).2.2.1 _ _ rfl rfl⟩⟩

/-- C3, as stated, fails: start-logging with the body `{}`, which the driver
refuses, is answered with the error payload and status 500, which is not a
success status. -/
theorem driver_error_status_counterexample :
    (demoDriver.StartLogging [] (StartLoggingRequest.mk "" "")).2 =
      some (GoError.mk "file is required") ∧
    written [] (startLoggingHandler (sdk.decoder demoCodec) demoDriver []
        (demoRequest startLoggingPath bodyEmptyObject)).calls =
      [Response.mk 500 (Payload.error (ErrorResponse.mk "file is required"))] ∧
    ¬ (∀ resp ∈ written [] (startLoggingHandler (sdk.decoder demoCodec) demoDriver []
        (demoRequest startLoggingPath bodyEmptyObject)).calls,
      200 ≤ resp.StatusCode ∧ resp.StatusCode < 300) := by
  refine ⟨rfl, rfl, fun h => ?_⟩
  have h500 := (h (Response.mk 500 (Payload.error (ErrorResponse.mk "file is required")))
    (List.mem_singleton.mpr rfl)).2
  exact absurd h500 (by decide)

/-- C3, amended: in each of the three request-carrying handlers, when the
request decodes and the driver method returns a non-nil error, the handler
passes the error flag `true` to `sdk.EncodeResponse`, and the response written
for it carries the error payload with status 500.  When the driver method
returns nil, and in the capabilities handler, the flag is `false` and the
status is 200: the status tells failure from success as the payload does. -/
theorem driver_error_status [Inhabited Info] [Inhabited ReadConfig]
    (dec : SDK Info ReadConfig) (driver : Driver σ Info ReadConfig ρ) (s : σ) (r : Request) :
    (∀ req e, dec.DecodeStartLoggingRequest r StartLoggingRequest.zero = Except.ok req →
      (driver.StartLogging s req).2 = some e →
      (encoded (startLoggingHandler dec driver s r).calls).map Prod.snd = [true] ∧
      written [] (startLoggingHandler dec driver s r).calls =
        [Response.mk 500 (Payload.error (NewErrorResponse e.Error))]) ∧
    (∀ req e, dec.DecodeStopLoggingRequest r StopLoggingRequest.zero = Except.ok req →
      (driver.StopLogging s req).2 = some e →
      (encoded (stopLoggingHandler dec driver s r).calls).map Prod.snd = [true] ∧
      written [] (stopLoggingHandler dec driver s r).calls =
        [Response.mk 500 (Payload.error (NewErrorResponse e.Error))]) ∧
    (∀ req e, dec.DecodeReadLogsRequest r ReadLogsRequest.zero = Except.ok req →
      (driver.ReadLogs s req).2.2 = some e →
      (encoded (readLogsHandler dec driver s r).calls).map Prod.snd = [true] ∧
      written [] (readLogsHandler dec driver s r).calls =
        [Response.mk 500 (Payload.error (NewErrorResponse e.Error))]) ∧
    (∀ req, dec.DecodeStartLoggingRequest r StartLoggingRequest.zero = Except.ok req →
      (driver.StartLogging s req).2 = none →
      written [] (startLoggingHandler dec driver s r).calls =
        [Response.mk 200 Payload.empty]) ∧
    (∀ req, dec.DecodeStopLoggingRequest r StopLoggingRequest.zero = Except.ok req →
      (driver.StopLogging s req).2 = none →
      written [] (stopLoggingHandler dec driver s r).calls =
        [Response.mk 200 Payload.empty]) ∧
    (∀ req, dec.DecodeReadLogsRequest r ReadLogsRequest.zero = Except.ok req →
      (driver.ReadLogs s req).2.2 = none →
      written [] (readLogsHandler dec driver s r).calls =
        [Response.mk 200 (Payload.readLogs (driver.ReadLogs s req).2.1)]) ∧
    written [] (capabilitiesHandler driver s r).calls =
      [Response.mk 200 (Payload.capabilities (driver.Capabilities s).2)] := by
  refine ⟨fun req e h hd => ?_, fun req e h hd => ?_, fun req e h hd => ?_,
    fun req h hd => ?_, fun req h hd => ?_, fun req h hd => ?_, rfl⟩
  · rw [startLoggingHandler_driver_error dec driver s r req e h hd]
    exact ⟨rfl, rfl⟩
  · rw [stopLoggingHandler_driver_error dec driver s r req e h hd]
    exact ⟨rfl, rfl⟩
  · rw [readLogsHandler_driver_error dec driver s r req e h hd]
    exact ⟨rfl, rfl⟩
  · rw [startLoggingHandler_success dec driver s r req h hd]
    rfl
  · rw [stopLoggingHandler_success dec driver s r req h hd]
    rfl
  · rw [readLogsHandler_success dec driver s r req h hd]
    rfl

/-- C3 amended, at concrete requests: start-logging with the body `{}`, which
the driver refuses, and with a body naming a file, which it accepts. -/
theorem driver_error_status_witness :
    ((sdk.decoder demoCodec).DecodeStartLoggingRequest
        (demoRequest startLoggingPath bodyEmptyObject) StartLoggingRequest.zero =
        Except.ok (StartLoggingRequest.mk "" "") ∧
      (demoDriver.StartLogging [] (StartLoggingRequest.mk "" "")).2 =
        some (GoError.mk "file is required") ∧
      (encoded (startLoggingHandler (sdk.decoder demoCodec) demoDriver []
        (demoRequest startLoggingPath bodyEmptyObject)).calls).map Prod.snd = [true] ∧
      written [] (startLoggingHandler (sdk.decoder demoCodec) demoDriver []
        (demoRequest startLoggingPath bodyEmptyObject)).calls =
        [Response.mk 500 (Payload.error (NewErrorResponse "file is required"))]) ∧
    ((sdk.decoder demoCodec).DecodeStartLoggingRequest
        (demoRequest startLoggingPath bodyFileInfo) StartLoggingRequest.zero =
        Except.ok (StartLoggingRequest.mk "/run/fifo" "c1") ∧
      (demoDriver.StartLogging [] (StartLoggingRequest.mk "/run/fifo" "c1")).2 = none ∧
      written [] (startLoggingHandler (sdk.decoder demoCodec) demoDriver []
        (demoRequest startLoggingPath bodyFileInfo)).calls =
        [Response.mk 200 Payload.empty]) :=
  ⟨⟨rfl, rfl,
    (driver_error_status (sdk.decoder demoCodec) demoDriver []
      (demoRequest startLoggingPath bodyEmptyObject)).1 _ _ rfl rfl⟩,
   ⟨rfl, rfl,
    (driver_error_status (sdk.decoder demoCodec) demoDriver []
      (demoRequest startLoggingPath bodyFileInfo)).2.2.2.1 _ rfl rfl⟩⟩

/-! ## Successful requests -/

/-- C5: the capabilities handler takes no input.  For a fixed driver (in a
fixed state) any two requests are handled alike: the single response is the
result of `driver.Capabilities()` encoded without the error flag;
`sdk.DecodeRequest` is not called, and `Capabilities` is the only driver
method invoked, once; no error payload is encoded. -/
theorem capabilities_takes_no_input (driver : Driver σ Info ReadConfig ρ) (s : σ)
    (r1 r2 : Request) :
    capabilitiesHandler driver s r1 = capabilitiesHandler driver s r2 ∧
    encoded (capabilitiesHandler driver s r1).calls =
      [(Payload.capabilities (driver.Capabilities s).2, false)] ∧
    decodeCalls (capabilitiesHandler driver s r1).calls = [] ∧
    methodsCalled (capabilitiesHandler driver s r1).calls = [Method.Capabilities] ∧
    (capabilitiesHandler driver s r1).driver = (driver.Capabilities s).1 ∧
    (encoded (capabilitiesHandler driver s r1).calls).any (fun p => p.1.isError) = false :=
  ⟨rfl, rfl, rfl, rfl, rfl, rfl⟩

/-- C6: in the start-logging and stop-logging handlers, when the request
decodes and the driver method returns nil, the single response encoded is the
empty struct, without the error flag. -/
theorem empty_success_body [Inhabited Info] [Inhabited ReadConfig]
    (dec : SDK Info ReadConfig) (driver : Driver σ Info ReadConfig ρ) (s : σ) (r : Request) :
    (∀ req, dec.DecodeStartLoggingRequest r StartLoggingRequest.zero = Except.ok req →
      (driver.StartLogging s req).2 = none →
      encoded (startLoggingHandler dec driver s r).calls = [(Payload.empty, false)]) ∧
    (∀ req, dec.DecodeStopLoggingRequest r StopLoggingRequest.zero = Except.ok req →
      (driver.StopLogging s req).2 = none →
      encoded (stopLoggingHandler dec driver s r).calls = [(Payload.empty, false)]) := by
  refine ⟨fun req h hd => ?_, fun req h hd => ?_⟩
  · rw [startLoggingHandler_success dec driver s r req h hd]
    rfl
  · rw [stopLoggingHandler_success dec driver s r req h hd]
    rfl

/-- C6 at concrete requests: starting to log `/run/fifo`, then stopping it. -/
theorem empty_success_body_witness :
    ((sdk.decoder demoCodec).DecodeStartLoggingRequest
        (demoRequest startLoggingPath bodyFileInfo) StartLoggingRequest.zero =
        Except.ok (StartLoggingRequest.mk "/run/fifo" "c1") ∧
      (demoDriver.StartLogging [] (StartLoggingRequest.mk "/run/fifo" "c1")).2 = none ∧
      encoded (startLoggingHandler (sdk.decoder demoCodec) demoDriver []
        (demoRequest startLoggingPath bodyFileInfo)).calls = [(Payload.empty, false)]) ∧
    ((sdk.decoder demoCodec).DecodeStopLoggingRequest
        (demoRequest stopLoggingPath bodyFile) StopLoggingRequest.zero =
        Except.ok (StopLoggingRequest.mk "/run/fifo") ∧
      (demoDriver.StopLogging ["/run/fifo"] (StopLoggingRequest.mk "/run/fifo")).2 = none ∧
      encoded (stopLoggingHandler (sdk.decoder demoCodec) demoDriver ["/run/fifo"]
        (demoRequest stopLoggingPath bodyFile)).calls = [(Payload.empty, false)]) :=
  ⟨⟨rfl, rfl, (empty_success_body (sdk.decoder demoCodec) demoDriver []
      (demoRequest startLoggingPath bodyFileInfo)).1 _ rfl rfl⟩,
   ⟨rfl, rfl, (empty_success_body (sdk.decoder demoCodec) demoDriver ["/run/fifo"]
      (demoRequest stopLoggingPath bodyFile)).2 _ rfl rfl⟩⟩

/-- C7: with `ReadLogs` as the interface declares it at line 56 (the error
is its only result, `ρ = Unit`), the response to a read-logs request that
decodes and on which `ReadLogs` returns nil is the empty value, without the
error flag, whatever the driver is and whatever state it is in: nothing the
driver read reaches the response. -/
theorem read_logs_declared_interface [Inhabited Info] [Inhabited ReadConfig]
    (dec : SDK Info ReadConfig) (driver : Driver σ Info ReadConfig Unit) (s : σ) (r : Request)
    (req : ReadLogsRequest ReadConfig Info)
    (h : dec.DecodeReadLogsRequest r ReadLogsRequest.zero = Except.ok req)
    (hd : (driver.ReadLogs s req).2.2 = none) :
    encoded (readLogsHandler dec driver s r).calls = [(Payload.readLogs (), false)] := by
  rw [readLogsHandler_success dec driver s r req h hd]
  rfl

/-- C7 at a concrete request: reading the logs of container `c1` from a
driver with `ReadLogs` as declared. -/
theorem read_logs_declared_interface_witness :
    (sdk.decoder demoCodec).DecodeReadLogsRequest
        (demoRequest readLogsPath bodyReadConfigInfo) ReadLogsRequest.zero =
        Except.ok (ReadLogsRequest.mk true "c1") ∧
    (declaredDriver.ReadLogs [] (ReadLogsRequest.mk true "c1")).2.2 = none ∧
    encoded (readLogsHandler (sdk.decoder demoCodec) declaredDriver []
        (demoRequest readLogsPath bodyReadConfigInfo)).calls =
      [(Payload.readLogs (), false)] :=
  ⟨rfl, rfl, read_logs_declared_interface (sdk.decoder demoCodec) declaredDriver []
    (demoRequest readLogsPath bodyReadConfigInfo) (ReadLogsRequest.mk true "c1") rfl rfl⟩

/-! ## The shapes of a response -/

/-- C4, as stated, fails: start-logging given a body that is not JSON returns
after the failed decode without encoding any response. -/
theorem one_response_counterexample :
    ¬ OneResponse (startLoggingHandler (sdk.decoder demoCodec) demoDriver []
        (demoRequest startLoggingPath bodyNotJson)).calls := by
  rintro ⟨p, err, h, _⟩
  have h0 : encoded (startLoggingHandler (sdk.decoder demoCodec) demoDriver []
      (demoRequest startLoggingPath bodyNotJson)).calls = [] := rfl
  rw [h0] at h
  cases h

/-- C4, amended: the capabilities handler, for every request, and each of the
other three handlers, for every request that decodes, encodes exactly one
response, of one of the three shapes (empty success body, typed success
payload, error payload); for a request that fails to decode the handler
encodes no response. -/
theorem one_response_when_decoded [Inhabited Info] [Inhabited ReadConfig]
    (dec : SDK Info ReadConfig) (driver : Driver σ Info ReadConfig ρ) (s : σ) (r : Request) :
    OneResponse (capabilitiesHandler driver s r).calls ∧
    (∀ req, dec.DecodeStartLoggingRequest r StartLoggingRequest.zero = Except.ok req →
      OneResponse (startLoggingHandler dec driver s r).calls) ∧
    (∀ req, dec.DecodeStopLoggingRequest r StopLoggingRequest.zero = Except.ok req →
      OneResponse (stopLoggingHandler dec driver s r).calls) ∧
    (∀ req, dec.DecodeReadLogsRequest r ReadLogsRequest.zero = Except.ok req →
      OneResponse (readLogsHandler dec driver s r).calls) ∧
    (∀ e, dec.DecodeStartLoggingRequest r StartLoggingRequest.zero = Except.error e →
      encoded (startLoggingHandler dec driver s r).calls = []) ∧
    (∀ e, dec.DecodeStopLoggingRequest r StopLoggingRequest.zero = Except.error e →
      encoded (stopLoggingHandler dec driver s r).calls = []) ∧
    (∀ e, dec.DecodeReadLogsRequest r ReadLogsRequest.zero = Except.error e →
      encoded (readLogsHandler dec driver s r).calls = []) := by
  refine ⟨?_, fun req h => ?_, fun req h => ?_, fun req h => ?_,
    fun e h => ?_, fun e h => ?_, fun e h => ?_⟩
  · exact ⟨Payload.capabilities (driver.Capabilities s).2, false, rfl,
      Or.inr (Or.inr (Or.inl ⟨⟨_, rfl⟩, rfl⟩))⟩
  · rcases hd : (driver.StartLogging s req).2 with _ | e
    · rw [startLoggingHandler_success dec driver s r req h hd]
      exact ⟨Payload.empty, false, rfl, Or.inl ⟨rfl, rfl⟩⟩
    · rw [startLoggingHandler_driver_error dec driver s r req e h hd]
      exact ⟨Payload.error (NewErrorResponse e.Error), true, rfl,
        Or.inr (Or.inr (Or.inr ⟨e.Error, rfl⟩))⟩
  · rcases hd : (driver.StopLogging s req).2 with _ | e
    · rw [stopLoggingHandler_success dec driver s r req h hd]
      exact ⟨Payload.empty, false, rfl, Or.inl ⟨rfl, rfl⟩⟩
    · rw [stopLoggingHandler_driver_error dec driver s r req e h hd]
      exact ⟨Payload.error (NewErrorResponse e.Error), true, rfl,
        Or.inr (Or.inr (Or.inr ⟨e.Error, rfl⟩))⟩
  · rcases hd : (driver.ReadLogs s req).2.2 with _ | e
    · rw [readLogsHandler_success dec driver s r req h hd]
      exact ⟨Payload.readLogs (driver.ReadLogs s req).2.1, false, rfl,
        Or.inr (Or.inl ⟨⟨_, rfl⟩, rfl⟩)⟩
    · rw [readLogsHandler_driver_error dec driver s r req e h hd]
      exact ⟨Payload.error (NewErrorResponse e.Error), true, rfl,
        Or.inr (Or.inr (Or.inr ⟨e.Error, rfl⟩))⟩
  · rw [startLoggingHandler_decode_error dec driver s r e h]
    rfl
  · rw [stopLoggingHandler_decode_error dec driver s r e h]
    rfl
  · rw [readLogsHandler_decode_error dec driver s r e h]
    rfl

/-- C4 amended, at concrete requests: a start-logging request that decodes, a
stop-logging request that decodes, a read-logs request that decodes, and one
request to each of the three that does not. -/
theorem one_response_when_decoded_witness :
    ((sdk.decoder demoCodec).DecodeStartLoggingRequest
        (demoRequest startLoggingPath bodyFileInfo) StartLoggingRequest.zero =
        Except.ok (StartLoggingRequest.mk "/run/fifo" "c1") ∧
      OneResponse (startLoggingHandler (sdk.decoder demoCodec) demoDriver []
        (demoRequest startLoggingPath bodyFileInfo)).calls) ∧
    ((sdk.decoder demoCodec).DecodeStopLoggingRequest
        (demoRequest stopLoggingPath bodyFile) StopLoggingRequest.zero =
        Except.ok (StopLoggingRequest.mk "/run/fifo") ∧
      OneResponse (stopLoggingHandler (sdk.decoder demoCodec) demoDriver []
        (demoRequest stopLoggingPath bodyFile)).calls) ∧
    ((sdk.decoder demoCodec).DecodeReadLogsRequest
        (demoRequest readLogsPath bodyReadConfigInfo) ReadLogsRequest.zero =
        Except.ok (ReadLogsRequest.mk true "c1") ∧
      OneResponse (readLogsHandler (sdk.decoder demoCodec) demoDriver []
        (demoRequest readLogsPath bodyReadConfigInfo)).calls) ∧
    ((∃ e, (sdk.decoder demoCodec).DecodeStartLoggingRequest
        (demoRequest startLoggingPath bodyWrongType) StartLoggingRequest.zero =
        Except.error e) ∧
      encoded (startLoggingHandler (sdk.decoder demoCodec) demoDriver []
        (demoRequest startLoggingPath bodyWrongType)).calls = []) ∧
    ((∃ e, (sdk.decoder demoCodec).DecodeStopLoggingRequest
        (demoRequest stopLoggingPath bodyNotJson) StopLoggingRequest.zero =
        Except.error e) ∧
      encoded (stopLoggingHandler (sdk.decoder demoCodec) demoDriver []
        (demoRequest stopLoggingPath bodyNotJson)).calls = []) ∧
    ((∃ e, (sdk.decoder demoCodec).DecodeReadLogsRequest
        (demoRequest readLogsPath bodyArray) ReadLogsRequest.zero =
        Except.error e) ∧
      encoded (readLogsHandler (sdk.decoder demoCodec) demoDriver []
        (demoRequest readLogsPath bodyArray)).calls = []) :=
  ⟨⟨rfl, (one_response_when_decoded (sdk.decoder demoCodec) demoDriver []
      (demoRequest startLoggingPath bodyFileInfo)).2.1 _ rfl⟩,
   ⟨rfl, (one_response_when_decoded (sdk.decoder demoCodec) demoDriver []
      (demoRequest stopLoggingPath bodyFile)).2.2.1 _ rfl⟩,
   ⟨rfl, (one_response_when_decoded (sdk.decoder demoCodec) demoDriver []
      (demoRequest readLogsPath bodyReadConfigInfo)).2.2.2.1 _ rfl⟩,
   ⟨⟨_, rfl⟩, (one_response_when_decoded (sdk.decoder demoCodec) demoDriver []
      (demoRequest startLoggingPath bodyWrongType)).2.2.2.2.1 _ rfl⟩,
   ⟨⟨_, rfl⟩, (one_response_when_decoded (sdk.decoder demoCodec) demoDriver []
      (demoRequest stopLoggingPath bodyNotJson)).2.2.2.2.2.1 _ rfl⟩,
   ⟨⟨_, rfl⟩, (one_response_when_decoded (sdk.decoder demoCodec) demoDriver []
      (demoRequest readLogsPath bodyArray)).2.2.2.2.2.2 _ rfl⟩⟩

/-! ## The dispatch table -/

/-- C8: `NewHandler` registers four routes, after whatever `sdk.NewHandler`
put in the mux: the four fixed paths, pairwise distinct, each with the closure
for the driver method of the same name on the driver given to `NewHandler`;
the closure registered at a path invokes the method of its name, at most once
(exactly once for `Capabilities`), and no other driver method. -/
theorem dispatch_table [Inhabited Info] [Inhabited ReadConfig]
    (dec : SDK Info ReadConfig) (newSdkHandler : String → sdk.Handler σ Info ReadConfig ρ)
    (driver : Driver σ Info ReadConfig ρ) :
    (NewHandler dec newSdkHandler driver).sdk.mux =
      (newSdkHandler manifest).mux ++
        [(startLoggingPath, startLoggingHandler dec driver),
         (stopLoggingPath, stopLoggingHandler dec driver),
         (readLogsPath, readLogsHandler dec driver),
         (capabilitiesPath, capabilitiesHandler driver)] ∧
    (NewHandler dec newSdkHandler driver).driver = driver ∧
    [startLoggingPath, stopLoggingPath, readLogsPath, capabilitiesPath] =
      ["/LogDriver.StartLogging", "/LogDriver.StopLogging", "/LogDriver.ReadLogs",
       "/LogDriver.Capabilities"] ∧
    [startLoggingPath, stopLoggingPath, readLogsPath, capabilitiesPath].Nodup ∧
    (∀ s r, methodsCalled (startLoggingHandler dec driver s r).calls = [] ∨
      methodsCalled (startLoggingHandler dec driver s r).calls = [Method.StartLogging]) ∧
    (∀ s r, methodsCalled (stopLoggingHandler dec driver s r).calls = [] ∨
      methodsCalled (stopLoggingHandler dec driver s r).calls = [Method.StopLogging]) ∧
    (∀ s r, methodsCalled (readLogsHandler dec driver s r).calls = [] ∨
      methodsCalled (readLogsHandler dec driver s r).calls = [Method.ReadLogs]) ∧
    (∀ s r, methodsCalled (capabilitiesHandler driver s r).calls = [Method.Capabilities]) := by
  refine ⟨?_, rfl, rfl, by decide, fun s r => ?_, fun s r => ?_, fun s r => ?_,
    fun s r => rfl⟩
  · simp only [NewHandler, Handler.initMux, sdk.Handler.HandleFunc, List.append_assoc,
      List.cons_append, List.nil_append]
  · rcases startLoggingHandler_cases dec driver s r with ⟨e, h⟩ | ⟨req, e, h, hd⟩ | ⟨req, h, hd⟩
    · rw [startLoggingHandler_decode_error dec driver s r e h]
      exact Or.inl rfl
    · rw [startLoggingHandler_driver_error dec driver s r req e h hd]
      exact Or.inr rfl
    · rw [startLoggingHandler_success dec driver s r req h hd]
      exact Or.inr rfl
  · rcases stopLoggingHandler_cases dec driver s r with ⟨e, h⟩ | ⟨req, e, h, hd⟩ | ⟨req, h, hd⟩
    · rw [stopLoggingHandler_decode_error dec driver s r e h]
      exact Or.inl rfl
    · rw [stopLoggingHandler_driver_error dec driver s r req e h hd]
      exact Or.inr rfl
    · rw [stopLoggingHandler_success dec driver s r req h hd]
      exact Or.inr rfl
  · rcases readLogsHandler_cases dec driver s r with ⟨e, h⟩ | ⟨req, e, h, hd⟩ | ⟨req, h, hd⟩
    · rw [readLogsHandler_decode_error dec driver s r e h]
      exact Or.inl rfl
    · rw [readLogsHandler_driver_error dec driver s r req e h hd]
      exact Or.inr rfl
    · rw [readLogsHandler_success dec driver s r req h hd]
      exact Or.inr rfl


/-! ## Decoding and pass-through -/

/-- C9, as stated, fails: the decoder is not strict.  A body with a member
the schema does not have, sent to start-logging, decodes and `StartLogging` is
invoked; so is `StopLogging` for a body that names the field in small letters
and has text behind the JSON value, and `ReadLogs` for the body `null`.  None
of the three requests is refused. -/
theorem strict_decoding_counterexample :
    json.first bodyExtraMember =
      some (Json.obj [("File", Json.str "/run/fifo"), ("Extra", Json.bool true)], []) ∧
    driverCalls (startLoggingHandler (sdk.decoder demoCodec) demoDriver []
        (demoRequest startLoggingPath bodyExtraMember)).calls =
      [Call.StartLogging (StartLoggingRequest.mk "/run/fifo" "")] ∧
    json.first bodyFoldedTrailing =
      some (Json.obj [("file", Json.str "/run/fifo")], " trailing".data) ∧
    driverCalls (stopLoggingHandler (sdk.decoder demoCodec) demoDriver ["/run/fifo"]
        (demoRequest stopLoggingPath bodyFoldedTrailing)).calls =
      [Call.StopLogging (StopLoggingRequest.mk "/run/fifo")] ∧
    json.first bodyNull = some (Json.null, []) ∧
    driverCalls (readLogsHandler (sdk.decoder demoCodec) demoDriver []
        (demoRequest readLogsPath bodyNull)).calls =
      [Call.ReadLogs (ReadLogsRequest.mk false "")] ∧
    ¬ RefusedByStartLogging demoCodec demoDriver []
        (demoRequest startLoggingPath bodyExtraMember) ∧
    ¬ RefusedByStopLogging demoCodec demoDriver ["/run/fifo"]
        (demoRequest stopLoggingPath bodyFoldedTrailing) ∧
    ¬ RefusedByReadLogs demoCodec demoDriver []
        (demoRequest readLogsPath bodyNull) := by
  refine ⟨rfl, rfl, rfl, rfl, rfl, rfl, fun h => ?_, fun h => ?_, fun h => ?_⟩
  · have hcalls : methodsCalled (startLoggingHandler (sdk.decoder demoCodec) demoDriver []
        (demoRequest startLoggingPath bodyExtraMember)).calls = [Method.StartLogging] := rfl
    have hnone := h.2
    rw [hcalls] at hnone
    cases hnone
  · have hcalls : methodsCalled (stopLoggingHandler (sdk.decoder demoCodec) demoDriver
        ["/run/fifo"] (demoRequest stopLoggingPath bodyFoldedTrailing)).calls =
        [Method.StopLogging] := rfl
    have hnone := h.2
    rw [hcalls] at hnone
    cases hnone
  · have hcalls : methodsCalled (readLogsHandler (sdk.decoder demoCodec) demoDriver []
        (demoRequest readLogsPath bodyNull)).calls = [Method.ReadLogs] := rfl
    have hnone := h.2
    rw [hcalls] at hnone
    cases hnone

/-- C9, amended: requests are decoded the way `encoding/json` decodes, not
strictly.  For each of the three request-carrying handlers a body is a decode
failure, and the driver is not invoked for it, when the body does not start
with a well-formed JSON value (first part), when that value is neither an
object nor `null` (second part), or when a member named, up to the case of the
letters, after a field of the request holds a value other than `null` that
does not fit the field (third part).  The body `null` decodes to the
zero-valued request (fourth part), and a member named after no field of the
request is skipped (last three parts). -/
theorem lenient_decoding [Inhabited Info] [Inhabited ReadConfig]
    (c : Codec Info ReadConfig) (driver : Driver σ Info ReadConfig ρ) (s : σ) (r : Request) :
    (json.first r.Body = none →
      RefusedByStartLogging c driver s r ∧ RefusedByStopLogging c driver s r ∧
      RefusedByReadLogs c driver s r) ∧
    (∀ v rest, json.first r.Body = some (v, rest) → v ≠ Json.null →
      (∀ members, v ≠ Json.obj members) →
      RefusedByStartLogging c driver s r ∧ RefusedByStopLogging c driver s r ∧
      RefusedByReadLogs c driver s r) ∧
    (∀ members rest key v, json.first r.Body = some (Json.obj members, rest) →
      (key, v) ∈ members → v ≠ Json.null →
      (json.matches key "File" = true → (∀ t, v ≠ Json.str t) →
        RefusedByStartLogging c driver s r ∧ RefusedByStopLogging c driver s r) ∧
      (json.matches key "Info" = true → (∀ cur, c.decodeInfo v cur = none) →
        RefusedByStartLogging c driver s r ∧ RefusedByReadLogs c driver s r) ∧
      (json.matches key "ReadConfig" = true → (∀ cur, c.decodeReadConfig v cur = none) →
        RefusedByReadLogs c driver s r)) ∧
    (∀ rest, json.first r.Body = some (Json.null, rest) →
      (sdk.decoder c).DecodeStartLoggingRequest r StartLoggingRequest.zero =
        Except.ok StartLoggingRequest.zero ∧
      (sdk.decoder c).DecodeStopLoggingRequest r StopLoggingRequest.zero =
        Except.ok StopLoggingRequest.zero ∧
      (sdk.decoder c).DecodeReadLogsRequest r ReadLogsRequest.zero =
        Except.ok ReadLogsRequest.zero) ∧
    (∀ members req, sdk.startLoggingFields c members req =
      sdk.startLoggingFields c
        (members.filter (fun m => json.matches m.1 "File" || json.matches m.1 "Info")) req) ∧
    (∀ members req, sdk.stopLoggingFields members req =
      sdk.stopLoggingFields (members.filter (fun m => json.matches m.1 "File")) req) ∧
    (∀ members req, sdk.readLogsFields c members req =
      sdk.readLogsFields c
        (members.filter
          (fun m => json.matches m.1 "ReadConfig" || json.matches m.1 "Info")) req) := by
  refine ⟨fun h => ⟨?_, ?_, ?_⟩, fun v rest h hnull hobj => ⟨?_, ?_, ?_⟩,
    fun members rest key v h hm hnull =>
      ⟨fun hk hstr => ⟨?_, ?_⟩, fun hk hd => ⟨?_, ?_⟩, fun hk hd => ?_⟩,
    fun rest h => ⟨?_, ?_, ?_⟩,
    sdk.startLoggingFields_skip c, sdk.stopLoggingFields_skip, sdk.readLogsFields_skip c⟩
  · exact refusedByStartLogging_of_error c driver s r (sdk.DecodeRequest_no_value _ r _ h)
  · exact refusedByStopLogging_of_error c driver s r (sdk.DecodeRequest_no_value _ r _ h)
  · exact refusedByReadLogs_of_error c driver s r (sdk.DecodeRequest_no_value _ r _ h)
  · exact refusedByStartLogging_of_error c driver s r
      (sdk.DecodeRequest_no_struct _ r _ v rest h hnull hobj)
  · exact refusedByStopLogging_of_error c driver s r
      (sdk.DecodeRequest_no_struct _ r _ v rest h hnull hobj)
  · exact refusedByReadLogs_of_error c driver s r
      (sdk.DecodeRequest_no_struct _ r _ v rest h hnull hobj)
  · exact refusedByStartLogging_of_error c driver s r
      (sdk.DecodeRequest_no_fit _ r _ members rest h
        (sdk.startLoggingFields_wrong_File c key v hk hnull hstr members _ hm))
  · exact refusedByStopLogging_of_error c driver s r
      (sdk.DecodeRequest_no_fit _ r _ members rest h
        (sdk.stopLoggingFields_wrong_File key v hk hnull hstr members _ hm))
  · exact refusedByStartLogging_of_error c driver s r
      (sdk.DecodeRequest_no_fit _ r _ members rest h
        (sdk.startLoggingFields_wrong_Info c key v hk hnull hd members _ hm))
  · exact refusedByReadLogs_of_error c driver s r
      (sdk.DecodeRequest_no_fit _ r _ members rest h
        (sdk.readLogsFields_wrong_Info c key v hk hnull hd members _ hm))
  · exact refusedByReadLogs_of_error c driver s r
      (sdk.DecodeRequest_no_fit _ r _ members rest h
        (sdk.readLogsFields_wrong_ReadConfig c key v hk hnull hd members _ hm))
  · show sdk.DecodeRequest (sdk.startLoggingFields c) r _ = _
    unfold sdk.DecodeRequest
    rw [h]
  · show sdk.DecodeRequest sdk.stopLoggingFields r _ = _
    unfold sdk.DecodeRequest
    rw [h]
  · show sdk.DecodeRequest (sdk.readLogsFields c) r _ = _
    unfold sdk.DecodeRequest
    rw [h]

/-- C9 amended, at concrete requests: a body that is not JSON, a body that is
an array, and a body whose `File` is a number. -/
theorem lenient_decoding_witness :
    (json.first (demoRequest startLoggingPath bodyNotJson).Body = none ∧
      RefusedByStartLogging demoCodec demoDriver ["/run/fifo"]
        (demoRequest startLoggingPath bodyNotJson)) ∧
    (json.first (demoRequest readLogsPath bodyArray).Body =
        some (Json.arr [Json.number "1", Json.number "2"], []) ∧
      (Json.arr [Json.number "1", Json.number "2"] ≠ Json.null) ∧
      (∀ members, Json.arr [Json.number "1", Json.number "2"] ≠ Json.obj members) ∧
      RefusedByReadLogs demoCodec demoDriver ["/run/fifo"]
        (demoRequest readLogsPath bodyArray)) ∧
    (json.first (demoRequest stopLoggingPath bodyWrongType).Body =
        some (Json.obj [("File", Json.number "7")], []) ∧
      (("File", Json.number "7") ∈ [("File", Json.number "7")]) ∧
      (Json.number "7" ≠ Json.null) ∧
      json.matches "File" "File" = true ∧
      (∀ t, Json.number "7" ≠ Json.str t) ∧
      RefusedByStopLogging demoCodec demoDriver ["/run/fifo"]
        (demoRequest stopLoggingPath bodyWrongType)) :=
  ⟨⟨rfl, ((lenient_decoding demoCodec demoDriver ["/run/fifo"]
      (demoRequest startLoggingPath bodyNotJson)).1 rfl).1⟩,
   ⟨rfl, Json.noConfusion, fun _ => Json.noConfusion,
     ((lenient_decoding demoCodec demoDriver ["/run/fifo"]
       (demoRequest readLogsPath bodyArray)).2.1 _ _ rfl Json.noConfusion
       (fun _ => Json.noConfusion)).2.2⟩,
   ⟨rfl, List.mem_singleton.mpr rfl, Json.noConfusion, rfl, fun _ => Json.noConfusion,
     (((lenient_decoding demoCodec demoDriver ["/run/fifo"]
       (demoRequest stopLoggingPath bodyWrongType)).2.2.1 _ _ "File" (Json.number "7") rfl
       (List.mem_singleton.mpr rfl) Json.noConfusion).1 rfl (fun _ => Json.noConfusion)).2⟩⟩

/-- C10: pass-through of the decoded request.  In each of the three
request-carrying handlers, for a request that decodes, the driver method is
invoked exactly once, on the value the decoder made of the request starting
from the zero-valued struct, unaltered (first three parts, for every decoder).
With the decoder of the sdk, two requests with equal bodies hand the driver
equal calls (fourth part), and a field with no member in the body has its zero
value (last part). -/
theorem decoded_request_passed_through [Inhabited Info] [Inhabited ReadConfig]
    (dec : SDK Info ReadConfig) (c : Codec Info ReadConfig)
    (driver : Driver σ Info ReadConfig ρ) (s : σ) (r r2 : Request) :
    (∀ req, dec.DecodeStartLoggingRequest r StartLoggingRequest.zero = Except.ok req →
      driverCalls (startLoggingHandler dec driver s r).calls = [Call.StartLogging req] ∧
      (startLoggingHandler dec driver s r).driver = (driver.StartLogging s req).1) ∧
    (∀ req, dec.DecodeStopLoggingRequest r StopLoggingRequest.zero = Except.ok req →
      driverCalls (stopLoggingHandler dec driver s r).calls = [Call.StopLogging req] ∧
      (stopLoggingHandler dec driver s r).driver = (driver.StopLogging s req).1) ∧
    (∀ req, dec.DecodeReadLogsRequest r ReadLogsRequest.zero = Except.ok req →
      driverCalls (readLogsHandler dec driver s r).calls = [Call.ReadLogs req] ∧
      (readLogsHandler dec driver s r).driver = (driver.ReadLogs s req).1) ∧
    (r.Body = r2.Body →
      driverCalls (startLoggingHandler (sdk.decoder c) driver s r).calls =
        driverCalls (startLoggingHandler (sdk.decoder c) driver s r2).calls ∧
      driverCalls (stopLoggingHandler (sdk.decoder c) driver s r).calls =
        driverCalls (stopLoggingHandler (sdk.decoder c) driver s r2).calls ∧
      driverCalls (readLogsHandler (sdk.decoder c) driver s r).calls =
        driverCalls (readLogsHandler (sdk.decoder c) driver s r2).calls) ∧
    (∀ members rest, json.first r.Body = some (Json.obj members, rest) →
      (∀ req, (sdk.decoder c).DecodeStartLoggingRequest r StartLoggingRequest.zero =
          Except.ok req →
        ((∀ m ∈ members, json.matches m.1 "File" = false) → req.File = "") ∧
        ((∀ m ∈ members, json.matches m.1 "Info" = false) → req.Info = default)) ∧
      (∀ req, (sdk.decoder c).DecodeStopLoggingRequest r StopLoggingRequest.zero =
          Except.ok req →
        ((∀ m ∈ members, json.matches m.1 "File" = false) → req.File = "")) ∧
      (∀ req, (sdk.decoder c).DecodeReadLogsRequest r ReadLogsRequest.zero =
          Except.ok req →
        ((∀ m ∈ members, json.matches m.1 "ReadConfig" = false) →
          req.ReadConfig = default) ∧
        ((∀ m ∈ members, json.matches m.1 "Info" = false) → req.Info = default))) := by
  refine ⟨fun req h => ?_, fun req h => ?_, fun req h => ?_, fun hb => ⟨?_, ?_, ?_⟩,
    fun members rest hp => ⟨fun req h => ⟨fun hn => ?_, fun hn => ?_⟩, fun req h hn => ?_,
      fun req h => ⟨fun hn => ?_, fun hn => ?_⟩⟩⟩
  · rcases hd : (driver.StartLogging s req).2 with _ | e
    · rw [startLoggingHandler_success dec driver s r req h hd]
      exact ⟨rfl, rfl⟩
    · rw [startLoggingHandler_driver_error dec driver s r req e h hd]
      exact ⟨rfl, rfl⟩
  · rcases hd : (driver.StopLogging s req).2 with _ | e
    · rw [stopLoggingHandler_success dec driver s r req h hd]
      exact ⟨rfl, rfl⟩
    · rw [stopLoggingHandler_driver_error dec driver s r req e h hd]
      exact ⟨rfl, rfl⟩
  · rcases hd : (driver.ReadLogs s req).2.2 with _ | e
    · rw [readLogsHandler_success dec driver s r req h hd]
      exact ⟨rfl, rfl⟩
    · rw [readLogsHandler_driver_error dec driver s r req e h hd]
      exact ⟨rfl, rfl⟩
  · exact startLoggingHandler_driverCalls_congr (sdk.decoder c) driver s r r2
      (sdk.DecodeRequest_body (sdk.startLoggingFields c) r r2 StartLoggingRequest.zero hb)
  · exact stopLoggingHandler_driverCalls_congr (sdk.decoder c) driver s r r2
      (sdk.DecodeRequest_body sdk.stopLoggingFields r r2 StopLoggingRequest.zero hb)
  · exact readLogsHandler_driverCalls_congr (sdk.decoder c) driver s r r2
      (sdk.DecodeRequest_body (sdk.readLogsFields c) r r2 ReadLogsRequest.zero hb)
  · exact sdk.startLoggingFields_File c members StartLoggingRequest.zero req
      (sdk.DecodeRequest_ok_fields (sdk.startLoggingFields c) r _ req members rest hp h) hn
  · exact sdk.startLoggingFields_Info c members StartLoggingRequest.zero req
      (sdk.DecodeRequest_ok_fields (sdk.startLoggingFields c) r _ req members rest hp h) hn
  · exact sdk.stopLoggingFields_File members StopLoggingRequest.zero req
      (sdk.DecodeRequest_ok_fields sdk.stopLoggingFields r _ req members rest hp h) hn
  · exact sdk.readLogsFields_ReadConfig c members ReadLogsRequest.zero req
      (sdk.DecodeRequest_ok_fields (sdk.readLogsFields c) r _ req members rest hp h) hn
  · exact sdk.readLogsFields_Info c members ReadLogsRequest.zero req
      (sdk.DecodeRequest_ok_fields (sdk.readLogsFields c) r _ req members rest hp h) hn

/-- C10 at concrete requests: the body with the single member `File`, sent
to start-logging as a POST and again, with other method, path and headers, as
a PUT.  The driver is called once, with the file of the body and the zero
value of `Info`, and alike for the two requests. -/
theorem decoded_request_passed_through_witness :
    (sdk.decoder demoCodec).DecodeStartLoggingRequest
        (demoRequest startLoggingPath bodyFile) StartLoggingRequest.zero =
        Except.ok (StartLoggingRequest.mk "/run/fifo" "") ∧
    driverCalls (startLoggingHandler (sdk.decoder demoCodec) demoDriver []
        (demoRequest startLoggingPath bodyFile)).calls =
        [Call.StartLogging (StartLoggingRequest.mk "/run/fifo" "")] ∧
    (startLoggingHandler (sdk.decoder demoCodec) demoDriver []
        (demoRequest startLoggingPath bodyFile)).driver = ["/run/fifo"] ∧
    (demoRequest startLoggingPath bodyFile).Body = (Request.mk "PUT" "/other" [] bodyFile).Body ∧
    driverCalls (startLoggingHandler (sdk.decoder demoCodec) demoDriver []
        (demoRequest startLoggingPath bodyFile)).calls =
      driverCalls (startLoggingHandler (sdk.decoder demoCodec) demoDriver []
        (Request.mk "PUT" "/other" [] bodyFile)).calls ∧
    json.first (demoRequest startLoggingPath bodyFile).Body =
        some (Json.obj [("File", Json.str "/run/fifo")], []) ∧
    (∀ m ∈ [("File", Json.str "/run/fifo")], json.matches m.1 "Info" = false) ∧
    (StartLoggingRequest.mk "/run/fifo" "" : StartLoggingRequest String).Info = default :=
  ⟨rfl,
   ((decoded_request_passed_through (sdk.decoder demoCodec) demoCodec demoDriver []
      (demoRequest startLoggingPath bodyFile) (Request.mk "PUT" "/other" [] bodyFile)).1
      _ rfl).1,
   ((decoded_request_passed_through (sdk.decoder demoCodec) demoCodec demoDriver []
      (demoRequest startLoggingPath bodyFile) (Request.mk "PUT" "/other" [] bodyFile)).1
      _ rfl).2,
   rfl,
   ((decoded_request_passed_through (sdk.decoder demoCodec) demoCodec demoDriver []
      (demoRequest startLoggingPath bodyFile)
      (Request.mk "PUT" "/other" [] bodyFile)).2.2.2.1 rfl).1,
   rfl,
   (by
     intro m hm
     have hm1 : m = ("File", Json.str "/run/fifo") := List.mem_singleton.mp hm
     subst hm1
     rfl),
   ((decoded_request_passed_through (sdk.decoder demoCodec) demoCodec demoDriver []
      (demoRequest startLoggingPath bodyFile)
      (Request.mk "PUT" "/other" [] bodyFile)).2.2.2.2
      [("File", Json.str "/run/fifo")] [] rfl).1 (StartLoggingRequest.mk "/run/fifo" "") rfl
      |>.2 (by
        intro m hm
        have hm1 : m = ("File", Json.str "/run/fifo") := List.mem_singleton.mp hm
        subst hm1
        rfl)⟩

end claims

end logging
